import Mathlib

/-!
WebDAV client: error model, multistatus parsing and the client operations

A shallow embedding of `src/sources/request.hpp` (the layered request result
and its classification), of `src/sources/utils.hpp` (the timestamp parser) and
of `src/sources/client.cpp`: the PROPFIND response handling
(`resource_from_xml_node`, `Client::info`, `Client::is_directory`,
`Client::free_size`) and the operations that issue requests (`Client::check`,
`Client::clean`, `Client::create_directory`, `Client::sync_download`,
`Client::sync_upload`).

Conventions of the embedding:

* `long` / `long long` values are `Int`; where the 64-bit range matters
  (`std::stoll`, `boost::lexical_cast`) the bound is checked explicitly.
* a C++ exception leaving a function is the `Except.error` result.
* a pugixml node handle is `Option xml_node`; the empty handle is `none`.
* the network is a function from a server state and a request to a result and
  the next state; an operation threads a session that records every request
  it issued.
-/

namespace WebDAV

/-! ## request.hpp -/

/-- The transport status of libcurl, an enumeration whose zero is success. -/
abbrev CURLcode := Nat

/-- The code libcurl reports for a transfer without transport error. -/
def CURLE_OK : CURLcode := 0

/-- The application-level status `enum OtherError`. -/
inductive OtherError where
  | OTHER_OK
  | OTHER_MISSING_HANDLE
  deriving DecidableEq, Repr

/-- Modelled from the spec: the discriminated error `WebDAV::error` is declared
in `webdav/client.hpp`, which is not among the sources. Its variants are the
three the spec lists and `to_error` constructs: `curl_error` and `http_error`
carry a code, `unspecified_error` carries nothing. -/
inductive error where
  | curl_error (code : CURLcode)
  | http_error (code : Int)
  | unspecified_error
  deriving DecidableEq, Repr

/-- Transport check: `code == CURLE_OK`. -/
def check_curl_code (code : CURLcode) : Bool :=
  code == CURLE_OK

/-- HTTP check: `http_code >= 200 && http_code < 300`. -/
def check_http_code (http_code : Int) : Bool :=
  decide (http_code ≥ 200) && decide (http_code < 300)

/-- Application check: `err == OTHER_OK`. -/
def check_other_error (err : OtherError) : Bool :=
  err == OtherError.OTHER_OK

/-- The three-layered outcome of one executed request. -/
structure RequestResult where
  curlCode : CURLcode
  otherError : OtherError
  httpCode : Int
  deriving DecidableEq, Repr

/-- The verdict `RequestResult::is_success`. -/
def RequestResult.is_success (r : RequestResult) : Bool :=
  check_curl_code r.curlCode && check_http_code r.httpCode && check_other_error r.otherError

/-- The classification `RequestResult::to_error`: four guarded returns, in the
order of the source. -/
def RequestResult.to_error (r : RequestResult) : Option error :=
  if !check_curl_code r.curlCode then some (error.curl_error r.curlCode)
  else if !check_other_error r.otherError then some error.unspecified_error
  else if !check_http_code r.httpCode then some (error.http_error r.httpCode)
  else none

/-- The classification as the specification words it: transport failure
first, then application failure, then an HTTP status outside `[200, 300)`,
else no error. -/
def classify (r : RequestResult) : Option error :=
  if r.curlCode ≠ CURLE_OK then some (error.curl_error r.curlCode)
  else if r.otherError ≠ OtherError.OTHER_OK then some error.unspecified_error
  else if ¬ (200 ≤ r.httpCode ∧ r.httpCode < 300) then some (error.http_error r.httpCode)
  else none

end WebDAV

/-! ## pugixml: the node interface the client uses -/

namespace pugi

/-- A node of a loaded document: an element with its tag name and child
nodes, or a run of character data (PCDATA and CDATA alike). These are the node
kinds `load_buffer` keeps under its default options; attributes are left out,
no query of the client reads one. The document itself is an element with an
empty name whose children are the top-level nodes. -/
inductive xml_node where
  | element (name : String) (children : List xml_node)
  | pcdata (value : String)

/-- Tag name of a node (`xml_node::name`): empty for character data. -/
def xml_node.name : xml_node → String
  | .element n _ => n
  | .pcdata _ => ""

/-- Value of a node (`xml_node::value`): empty for an element. -/
def xml_node.value : xml_node → String
  | .element _ _ => ""
  | .pcdata v => v

/-- Child nodes in document order. -/
def xml_node.children : xml_node → List xml_node
  | .element _ cs => cs
  | .pcdata _ => []

/-- Whether the node is an element, the only kind the XPath step `*` selects. -/
def xml_node.is_element : xml_node → Bool
  | .element _ _ => true
  | .pcdata _ => false

/-- Whether the node is character data. -/
def xml_node.is_text : xml_node → Bool
  | .element _ _ => false
  | .pcdata _ => true

/-- The part of a name after its first colon, the whole name when it has
none: what XPath `local-name()` yields for a node name. -/
def local_name_chars : List Char → List Char → List Char
  | whole, [] => whole
  | whole, c :: rest => if c = ':' then rest else local_name_chars whole rest

/-- XPath `local-name()` of a tag name. -/
def local_name (name : String) : String :=
  ⟨local_name_chars name.data name.data⟩

/-- The test of the query `*[local-name()='l']` on one child. -/
def matches_local (l : String) (c : xml_node) : Bool :=
  c.is_element && decide (local_name c.name = l)

/-- The node `select_node("*[local-name()='l']").node()`: the first child element
with that local name; the empty handle when there is none or when the context
handle is itself empty. -/
def select_node (h : Option xml_node) (l : String) : Option xml_node :=
  match h with
  | none => none
  | some n => n.children.find? (matches_local l)

/-- The node set `select_nodes("*[local-name()='l']")`: every child element with
that local name, in document order. -/
def select_nodes (h : Option xml_node) (l : String) : List xml_node :=
  match h with
  | none => []
  | some n => n.children.filter (matches_local l)

/-- The handle `first_child()`. -/
def first_child (h : Option xml_node) : Option xml_node :=
  match h with
  | none => none
  | some n => n.children.head?

/-- The string `name()` of a handle: empty on the empty handle. -/
def name (h : Option xml_node) : String :=
  match h with
  | none => ""
  | some n => n.name

/-- The string `value()` of a handle: empty on the empty handle. -/
def value (h : Option xml_node) : String :=
  match h with
  | none => ""
  | some n => n.value

/-- The string `text().get()` of a handle: the value of the node itself when it
is character data, else of its first character-data child, else empty. -/
def text_get (h : Option xml_node) : String :=
  match h with
  | none => ""
  | some (.pcdata v) => v
  | some (.element _ cs) =>
    match cs.find? xml_node.is_text with
    | some c => c.value
    | none => ""

end pugi

namespace WebDAV

/-! ## The C and C++ library calls of `resource_from_xml_node` -/

/-- The exceptions that arise in `resource_from_xml_node`: the two `std::stoll`
raises, and the `std::logic_error` of building a `std::string` from a null
pointer. -/
inductive exception where
  | invalid_argument
  | out_of_range
  | logic_error
  deriving DecidableEq, Repr

deriving instance DecidableEq for Except

/-- The white space `strtoll` skips (`isspace` in the C locale). -/
def isspace (c : Char) : Bool :=
  c = ' ' || c = '\t' || c = '\n' || c = '\x0b' || c = '\x0c' || c = '\r'

/-- Splits an optional leading sign off: (negative, rest). -/
def split_sign : List Char → Bool × List Char
  | '-' :: rest => (true, rest)
  | '+' :: rest => (false, rest)
  | cs => (false, cs)

/-- The number a run of decimal digits denotes. -/
def digits_value (ds : List Char) : Nat :=
  ds.foldl (fun acc d => 10 * acc + (d.toNat - '0'.toNat)) 0

/-- Smallest `long long`. -/
def LLONG_MIN : Int := -(2 ^ 63)

/-- Largest `long long`. -/
def LLONG_MAX : Int := 2 ^ 63 - 1

/-- The call `std::stoll(str)` (base 10, no position out-parameter): leading
white space is skipped, an optional sign is read, then the longest run of
decimal digits; what follows the digits is ignored. No digit at all raises
`invalid_argument`, a value outside `long long` raises `out_of_range`. -/
def stoll (str : String) : Except exception Int :=
  let (negative, rest) := split_sign (str.data.dropWhile isspace)
  let ds := rest.takeWhile Char.isDigit
  if ds = [] then Except.error exception.invalid_argument
  else
    let v : Int := if negative then -(digits_value ds : Int) else (digits_value ds : Int)
    if v < LLONG_MIN ∨ LLONG_MAX < v then Except.error exception.out_of_range
    else Except.ok v

/-- Value of a hexadecimal digit, if the character is one. -/
def hex_value (c : Char) : Option Nat :=
  if '0' ≤ c ∧ c ≤ '9' then some (c.toNat - '0'.toNat)
  else if 'a' ≤ c ∧ c ≤ 'f' then some (c.toNat - 'a'.toNat + 10)
  else if 'A' ≤ c ∧ c ≤ 'F' then some (c.toNat - 'A'.toNat + 10)
  else none

/-- Percent-decoding of libcurl: every `%XY` with two hexadecimal digits becomes
the byte with that value, everything else is copied. A byte is written here as
the character with the same code. -/
def urldecode : List Char → List Char
  | '%' :: x :: y :: rest =>
    match hex_value x, hex_value y with
    | some a, some b => Char.ofNat (16 * a + b) :: urldecode rest
    | _, _ => '%' :: urldecode (x :: y :: rest)
  | c :: rest => c :: urldecode rest
  | [] => []

/-- The conversion `static_cast<int>(n)` of a `size_t`: the value modulo `2^32`
read as a signed 32-bit integer, negative from `2^31` on. -/
def static_cast_int (n : Nat) : Int :=
  if n % 2 ^ 32 < 2 ^ 31 then ((n % 2 ^ 32 : Nat) : Int)
  else ((n % 2 ^ 32 : Nat) : Int) - 2 ^ 32

/-- The call `curl_unescape(s, length)`. A negative `length` gives the null
pointer, here `none`. Otherwise the first `length` bytes of `s` are decoded,
all of `s` when `length` is 0, and the result is read back as a C string, up to
its first NUL. The prefix is counted in characters of the model, which is the
byte count for ASCII text; a `length` that is the byte size of `s` covers all
of `s` either way. -/
def curl_unescape (s : String) (length : Int) : Option String :=
  if length < 0 then none
  else
    let input := if length = 0 then s.data else s.data.take length.toNat
    some ⟨(urldecode input).takeWhile (fun c => c ≠ Char.ofNat 0)⟩

/-! ## client.cpp: `resource_from_xml_node` and `Client::info` -/

/-- An instant of `std::chrono::system_clock`, counted in clock ticks. -/
abbrev time_point := Int

/-- Modelled from the spec: `struct resource` is declared in
`webdav/client.hpp`, which is not among the sources. The members are those of
the spec's data model, which `resource_from_xml_node` initialises and
`operator<<` prints: `href` is a string, every other member is a
`std::optional`. -/
structure resource where
  href : String
  display_name : Option String
  size : Option Int
  modified : Option time_point
  created : Option time_point
  type : Option String
  etag : Option String
  deriving DecidableEq, Repr

/-- The `try { size = std::stoll(text); } catch (std::invalid_argument&) {}` block:
only `invalid_argument` is caught, any other exception leaves the function. -/
def parse_size (text : String) : Except exception (Option Int) :=
  match stoll text with
  | Except.ok v => Except.ok (some v)
  | Except.error exception.invalid_argument => Except.ok none
  | Except.error e => Except.error e

set_option linter.unusedVariables false in
/-- The function `resource_from_xml_node`. `parse_tp_rfc2616` is the timestamp
parser of `utils.hpp`, which returns for every string and raises nothing; it is
an argument here so that this function does not depend on a time-zone database.
The length handed to `curl_unescape` is the byte length of the encoded text
cast to `int`; when `curl_unescape` answers with the null pointer, building
`resource_path` from it raises `std::logic_error`. -/
def resource_from_xml_node (parse_tp_rfc2616 : String → Option time_point)
    (node : pugi.xml_node) : Except exception (Option resource) :=
  let href := pugi.select_node (some node) "href"
  let encode_file_name := pugi.value (pugi.first_child href)
  match curl_unescape encode_file_name (static_cast_int encode_file_name.utf8ByteSize) with
  | none => Except.error exception.logic_error
  | some resource_path =>
    let propstat := pugi.select_node (some node) "propstat"
    let prop := pugi.select_node propstat "prop"
    let creation_date := pugi.select_node prop "creationdate"
    let display_name := pugi.select_node prop "displayname"
    let content_length := pugi.select_node prop "getcontentlength"
    let modified_date := pugi.select_node prop "getlastmodified"
    let resource_type := pugi.select_node prop "resourcetype"
    let etag := pugi.select_node prop "getetag"
    match parse_size (pugi.text_get content_length) with
    | Except.error e => Except.error e
    | Except.ok size =>
      Except.ok (some
        { href := pugi.text_get href
          display_name := some (pugi.text_get display_name)
          size := size
          modified := parse_tp_rfc2616 (pugi.text_get modified_date)
          created := parse_tp_rfc2616 (pugi.text_get creation_date)
          type := some (pugi.name (pugi.first_child resource_type))
          etag := some (pugi.text_get etag) })

/-- A path with one trailing `/` removed, as `Client::info` does to both sides
before comparing (`back() == '/'` then `resize(length() - 1)`). -/
def without_sep (path : String) : String :=
  if path.data.getLast? = some '/' then ⟨path.data.dropLast⟩ else path

/-- The `for (auto response : responses)` loop of `Client::info`. -/
def Client.info_loop (parse_tp_rfc2616 : String → Option time_point) (target_path : String) :
    List pugi.xml_node → Except exception (Option resource)
  | [] => Except.ok none
  | response :: rest =>
    match resource_from_xml_node parse_tp_rfc2616 response with
    | Except.error e => Except.error e
    | Except.ok none => Client.info_loop parse_tp_rfc2616 target_path rest
    | Except.ok (some res) =>
      if without_sep res.href = without_sep target_path then Except.ok (some res)
      else Client.info_loop parse_tp_rfc2616 target_path rest

/-- The method `Client::info` after the request has been executed.
`target_path` is `target_urn.path()`, the root joined with the remote path
(`urn.hpp` is not among the sources, so the joined path is an input);
`result` is what `request.perform()` returned, read as a boolean through
`is_success`; `document` is what `load_buffer` built from the response body. -/
def Client.info (parse_tp_rfc2616 : String → Option time_point) (target_path : String)
    (result : RequestResult) (document : pugi.xml_node) : Except exception (Option resource) :=
  if !result.is_success then Except.ok none
  else
    let multistatus := pugi.select_node (some document) "multistatus"
    let responses := pugi.select_nodes multistatus "response"
    Client.info_loop parse_tp_rfc2616 target_path responses

/-! ## Vocabulary of the statements -/

/-- The node `propstat/prop` of a response node, as `resource_from_xml_node`
reaches it. -/
def prop_node (node : pugi.xml_node) : Option pugi.xml_node :=
  pugi.select_node (pugi.select_node (some node) "propstat") "prop"

/-- The text of the `getcontentlength` property of a response node. -/
def content_length_text (node : pugi.xml_node) : String :=
  pugi.text_get (pugi.select_node (prop_node node) "getcontentlength")

/-- The text of the `href` child of a response node. -/
def href_text (node : pugi.xml_node) : String :=
  pugi.text_get (pugi.select_node (some node) "href")

/-- The encoded text `encode_file_name` that `resource_from_xml_node` hands to
`curl_unescape`: the value of the first child of the `href` child. -/
def encoded_href (node : pugi.xml_node) : String :=
  pugi.value (pugi.first_child (pugi.select_node (some node) "href"))

/-- An href text of `2^31` bytes, each the letter `a`. -/
def long_href : String :=
  ⟨List.replicate (2 ^ 31) 'a'⟩

/-- A text that is, as a whole, a decimal integer: an optional sign followed by
one or more decimal digits and nothing else. -/
def is_decimal_integer (text : String) : Bool :=
  let ds := (split_sign text.data).2
  !ds.isEmpty && ds.all Char.isDigit

/-- A text that starts with a number the way `strtoll` reads one: optional
white space, an optional sign, then a decimal digit. -/
def starts_with_number (text : String) : Bool :=
  match (split_sign (text.data.dropWhile isspace)).2 with
  | c :: _ => c.isDigit
  | [] => false

/-- A PROPFIND response entry with the given `href` text and, optionally, a
`getcontentlength` text. -/
def response_entry (href : String) (content_length : Option String) : pugi.xml_node :=
  .element "D:response"
    [ .element "D:href" [.pcdata href],
      .element "D:propstat"
        [ .element "D:prop"
            (match content_length with
             | some text => [.element "D:getcontentlength" [.pcdata text]]
             | none => []) ] ]

/-- A loaded multistatus document with the given response entries. -/
def multistatus_document (responses : List pugi.xml_node) : pugi.xml_node :=
  .element "" [.element "D:multistatus" responses]

/-- A request result that is a success: no transport error, no application
error, HTTP 207 Multi-Status. -/
def multistatus_ok : RequestResult :=
  ⟨CURLE_OK, OtherError.OTHER_OK, 207⟩

end WebDAV

/-! ## client.cpp: `Client::is_directory` and `Client::free_size` -/

namespace WebDAV

/-- The method `Client::is_directory` after the request of `info` has been
executed: the type tag of the resource `info` returned, compared with the two
literals of the source. An exception of `info` passes through. -/
def Client.is_directory (parse_tp_rfc2616 : String → Option time_point) (target_path : String)
    (result : RequestResult) (document : pugi.xml_node) : Except exception Bool :=
  match Client.info parse_tp_rfc2616 target_path result document with
  | Except.error e => Except.error e
  | Except.ok information =>
    let resource_type : Option String :=
      match information with
      | some r => r.type
      | none => none
    let is_dir : Bool :=
      match resource_type with
      | some v => decide (v = "d:collection") || decide (v = "D:collection")
      | none => false
    Except.ok is_dir

/-- The exception of `boost::lexical_cast`. -/
inductive boost_exception where
  | bad_lexical_cast
  deriving DecidableEq, Repr

/-- Largest `unsigned long long`. -/
def ULLONG_MAX : Nat := 2 ^ 64 - 1

/-- The call `boost::lexical_cast<unsigned long long>(text)`: the whole text has
to be an optional sign followed by one or more decimal digits, and the digits
have to fit the type; anything else raises `bad_lexical_cast`. After a minus
sign the value is negated in the unsigned type. -/
def lexical_cast_ull (text : String) : Except boost_exception Nat :=
  let (negative, ds) := split_sign text.data
  if ds.isEmpty || !ds.all Char.isDigit then Except.error boost_exception.bad_lexical_cast
  else if ULLONG_MAX < digits_value ds then Except.error boost_exception.bad_lexical_cast
  else if negative then Except.ok ((2 ^ 64 - digits_value ds) % 2 ^ 64)
  else Except.ok (digits_value ds)

/-- The method `Client::free_size` after the request has been executed:
`result` is what `request.perform()` returned, `document` what `load_buffer`
built from the body. The cast of the last line stands in no `try` block. -/
def Client.free_size (result : RequestResult) (document : pugi.xml_node) :
    Except boost_exception Nat :=
  if !result.is_success then Except.ok 0
  else
    let multistatus := pugi.select_node (some document) "multistatus"
    let response := pugi.select_node multistatus "response"
    let propstat := pugi.select_node response "propstat"
    let prop := pugi.select_node propstat "prop"
    let quota_available_bytes := pugi.select_node prop "quota-available-bytes"
    let free_size_text := pugi.value (pugi.first_child quota_available_bytes)
    lexical_cast_ull free_size_text

end WebDAV

/-! ## urn.hpp: remote paths -/

namespace Urn

/-- Modelled from the spec: class `Urn::Path` is declared in `urn.hpp`, which
is not among the sources. A remote path is an ordered sequence of path
segments plus a flag that tells whether it denotes a directory. -/
structure Path where
  segments : List (List Char)
  is_directory : Bool
  deriving DecidableEq, Repr

/-- The segments of a raw path: the runs between separators, empty runs
dropped. `cur` is the run being read. -/
def segments_from : List Char → List Char → List (List Char)
  | [], cur => if cur = [] then [] else [cur]
  | c :: rest, cur =>
    if c = '/' then
      if cur = [] then segments_from rest [] else cur :: segments_from rest []
    else segments_from rest (cur ++ [c])

/-- Whether a raw path ends in a separator. -/
def ends_with_separator (raw : String) : Bool :=
  decide (raw.data.getLast? = some '/')

/-- Modelled from the spec: the constructor `Path(raw, is_directory)` of the
missing `urn.hpp`; it normalizes separators and strips redundant empty
segments. -/
def Path.new (raw : String) (is_directory : Bool) : Path :=
  ⟨segments_from raw.data [], is_directory⟩

/-- Modelled from the spec: `operator+` of the missing `urn.hpp`, the base
joined with a relative path, the directory flag taken from the relative path
(which denotes a directory when it ends in a separator). -/
def Path.concat (base : Path) (relative : String) : Path :=
  ⟨base.segments ++ segments_from relative.data [], ends_with_separator relative⟩

/-- Modelled from the spec: `parent()` of the missing `urn.hpp`, the path with
its last segment removed, or the path itself when it is already the root. -/
def Path.parent (p : Path) : Path :=
  if p.segments = [] then p else ⟨p.segments.dropLast, true⟩

/-- Every segment behind a separator. -/
def render_segments : List (List Char) → List Char
  | [] => []
  | seg :: rest => '/' :: seg ++ render_segments rest

/-- Modelled from the spec: `path()` of the missing `urn.hpp`, the logical,
unencoded string: separator-normalized, a directory with one trailing
separator, any other path with none; the root is the single separator. -/
def Path.path (p : Path) : String :=
  if p.segments = [] then "/"
  else ⟨render_segments p.segments ++ (if p.is_directory then ['/'] else [])⟩

end Urn

/-! ## client.cpp: the operations that issue requests -/

namespace WebDAV

/-- One request as the client configures it before `perform()`: the method
(`CURLOPT_CUSTOMREQUEST`, `GET` for a download, `PUT` for `CURLOPT_UPLOAD`), the
logical path of the target urn (the url is the host name followed by this path
percent-encoded) and the header lines. -/
structure Request where
  method : String
  path : String
  headers : List String
  deriving DecidableEq, Repr

/-- The network as one client sees it: executing a request in a server state
gives the result of `perform()` and the next server state. -/
abbrev Server (σ : Type) := σ → Request → RequestResult × σ

/-- What a run of client operations has done so far: the server state it left
and every request it issued with its result, oldest first. -/
structure Session (σ : Type) where
  state : σ
  issued : List (Request × RequestResult)

/-- The call `request.perform()` read as a boolean: the request is executed,
recorded, and the verdict is `is_success` of its result. -/
def perform {σ : Type} (server : Server σ) (w : Session σ) (request : Request) :
    Bool × Session σ :=
  let (result, state) := server w.state request
  (result.is_success, ⟨state, w.issued ++ [(request, result)]⟩)

/-- The method `Client::check`: one PROPFIND with `Depth: 1` on the root joined
with the resource. -/
def Client.check {σ : Type} (server : Server σ) (webdav_root : String)
    (remote_resource : String) (w : Session σ) : Bool × Session σ :=
  let root_urn := Urn.Path.new webdav_root true
  let resource_urn := root_urn.concat remote_resource
  perform server w ⟨"PROPFIND", resource_urn.path, ["Accept: */*", "Depth: 1"]⟩

/-- The method `Client::clean`, the delete operation. -/
def Client.clean {σ : Type} (server : Server σ) (webdav_root : String)
    (remote_resource : String) (w : Session σ) : Bool × Session σ :=
  match Client.check server webdav_root remote_resource w with
  | (is_existed, w1) =>
    if !is_existed then (true, w1)
    else
      let root_urn := Urn.Path.new webdav_root true
      let resource_urn := root_urn.concat remote_resource
      perform server w1 ⟨"DELETE", resource_urn.path, ["Accept: */*", "Connection: Keep-Alive"]⟩

/-- The MKCOL request of `Client::create_directory`: its target is the root
joined with the directory, rebuilt as a directory path. -/
def mkcol_request (webdav_root : String) (remote_directory : String) : Request :=
  let target_urn := (Urn.Path.new webdav_root true).concat remote_directory
  let target_urn := Urn.Path.new target_urn.path true
  ⟨"MKCOL", target_urn.path, ["Accept: */*", "Connection: Keep-Alive"]⟩

/-- The method `Client::create_directory` with a bound on the depth of its
self-calls: `none` when the bound is used up before the call returns. -/
def Client.create_directory_fuel {σ : Type} (server : Server σ) (webdav_root : String) :
    Nat → String → Bool → Session σ → Option (Bool × Session σ)
  | 0, _, _, _ => none
  | fuel + 1, remote_directory, recursive, w =>
    match Client.check server webdav_root remote_directory w with
    | (is_existed, w1) =>
      if is_existed then some (true, w1)
      else
        let directory_urn := Urn.Path.new remote_directory true
        if recursive then
          let remote_parent_directory := directory_urn.parent.path
          if remote_parent_directory = remote_directory then some (false, w1)
          else
            match Client.create_directory_fuel server webdav_root fuel
                remote_parent_directory true w1 with
            | none => none
            | some (is_created, w2) =>
              if !is_created then some (false, w2)
              else some (perform server w2 (mkcol_request webdav_root remote_directory))
        else some (perform server w1 (mkcol_request webdav_root remote_directory))

/-- The method `Client::create_directory`: the depth of the self-calls is at
most the number of segments of the directory plus two. -/
def Client.create_directory {σ : Type} (server : Server σ) (webdav_root : String)
    (remote_directory : String) (recursive : Bool) (w : Session σ) :
    Option (Bool × Session σ) :=
  Client.create_directory_fuel server webdav_root
    ((Urn.Path.new remote_directory true).segments.length + 2) remote_directory recursive w

/-- What one transfer operation did: the value it returned, the arguments of
the calls it made to the completion callback, in order, and the session. -/
structure Transfer (σ : Type) where
  returned : Bool
  callback_calls : List Bool
  session : Session σ

/-- The method `Client::sync_download`, the operation `async_download` runs on
its thread. `has_callback` tells whether `callback != nullptr`. -/
def Client.sync_download {σ : Type} (server : Server σ) (webdav_root : String)
    (remote_file : String) (has_callback : Bool) (w : Session σ) : Transfer σ :=
  match Client.check server webdav_root remote_file w with
  | (is_existed, w1) =>
    if !is_existed then ⟨false, [], w1⟩
    else
      let root_urn := Urn.Path.new webdav_root true
      let file_urn := root_urn.concat remote_file
      match perform server w1 ⟨"GET", file_urn.path, []⟩ with
      | (is_performed, w2) =>
        ⟨is_performed, if has_callback then [is_performed] else [], w2⟩

/-- The method `Client::sync_upload`, the operation `async_upload` runs on its
thread. `local_file_exists` is `FileInfo::exists(local_file)`, `has_callback`
tells whether `callback != nullptr`. -/
def Client.sync_upload {σ : Type} (server : Server σ) (webdav_root : String)
    (remote_file : String) (local_file_exists : Bool) (has_callback : Bool) (w : Session σ) :
    Transfer σ :=
  let is_existed := local_file_exists
  if !is_existed then ⟨false, [], w⟩
  else
    let root_urn := Urn.Path.new webdav_root true
    let file_urn := root_urn.concat remote_file
    match perform server w ⟨"PUT", file_urn.path, []⟩ with
    | (is_performed, w1) =>
      ⟨is_performed, if has_callback then [is_performed] else [], w1⟩

/-! ## Vocabulary of the statements: servers and logs -/

/-- The requests a session issued between two of its points: what `later` has
recorded beyond the `n` entries that were there before. -/
def issued_since {σ : Type} (n : Nat) (later : Session σ) : List (Request × RequestResult) :=
  later.issued.drop n

/-- The target paths of the requests of one method in a log, in the order they
were issued. -/
def paths_of_method (method : String) (log : List (Request × RequestResult)) : List String :=
  (log.filter (fun e => decide (e.1.method = method))).map (fun e => e.1.path)

/-- The method and target path of every request of a log, in the order they
were issued. -/
def requests_of (log : List (Request × RequestResult)) : List (String × String) :=
  log.map (fun e => (e.1.method, e.1.path))

/-- A log entry that is an MKCOL which did not succeed. -/
def failed_mkcol (e : Request × RequestResult) : Bool :=
  decide (e.1.method = "MKCOL") && !e.2.is_success

/-- A log in which nothing follows an MKCOL that did not succeed, kept by a
call that returned `returned`: every such MKCOL is the last entry of the log,
and the call that met one returned false. -/
def stops_at_failed_mkcol (log : List (Request × RequestResult)) (returned : Bool) : Prop :=
  ∀ pre e post, log = pre ++ e :: post → failed_mkcol e = true → post = [] ∧ returned = false

/-- MKCOL for each directory of the list in turn, as long as each succeeds:
the first one that fails ends the run with false and nothing is issued for the
directories after it. -/
def mkcol_in_order {σ : Type} (server : Server σ) (webdav_root : String) :
    List String → Session σ → Bool × Session σ
  | [], w => (true, w)
  | directory :: deeper, w =>
    match perform server w (mkcol_request webdav_root directory) with
    | (true, w1) => mkcol_in_order server webdav_root deeper w1
    | (false, w1) => (false, w1)

/-- A WebDAV server stand-in for concrete runs. Its state is the list of the
collections that exist, each written without trailing separator (the root is
the empty string). PROPFIND answers 207 for a collection that exists and 404
otherwise; MKCOL answers 403 for a path in `refused` and otherwise 201,
creating the collection; every other method answers 405. -/
def collection_server (refused : List String) : Server (List String) :=
  fun existing request =>
    if request.method = "PROPFIND" then
      if without_sep request.path ∈ existing then
        (⟨CURLE_OK, OtherError.OTHER_OK, 207⟩, existing)
      else (⟨CURLE_OK, OtherError.OTHER_OK, 404⟩, existing)
    else if request.method = "MKCOL" then
      if without_sep request.path ∈ refused then
        (⟨CURLE_OK, OtherError.OTHER_OK, 403⟩, existing)
      else (⟨CURLE_OK, OtherError.OTHER_OK, 201⟩, existing ++ [without_sep request.path])
    else (⟨CURLE_OK, OtherError.OTHER_OK, 405⟩, existing)

/-- The session before any request, on a server where only the root exists. -/
def only_root : Session (List String) :=
  ⟨[""], []⟩

/-- A resource type tag that, compared case-insensitively, contains
`collection`. -/
def contains_collection (resource_type : String) : Bool :=
  (resource_type.data.map Char.toLower).tails.any
    (fun t => "collection".data.isPrefixOf t)

/-- A PROPFIND response entry with the given `href` text whose `resourcetype`
holds one empty element with the given tag name. -/
def typed_entry (href : String) (type_tag : String) : pugi.xml_node :=
  .element "D:response"
    [ .element "D:href" [.pcdata href],
      .element "D:propstat"
        [ .element "D:prop" [.element "D:resourcetype" [.element type_tag []]] ] ]

/-- A multistatus entry that carries the given text under
`propstat/prop/quota-available-bytes`, or no such element. -/
def quota_document (quota_available_bytes : Option String) : pugi.xml_node :=
  multistatus_document
    [ .element "D:response"
        [ .element "D:href" [.pcdata "/"],
          .element "D:propstat"
            [ .element "D:prop"
                (match quota_available_bytes with
                 | some text => [.element "D:quota-available-bytes" [.pcdata text]]
                 | none => []) ] ] ]

end WebDAV

/-! ## utils.hpp: `parse_tp_rfc2616` -/

namespace utils

/-- The broken-down time `std::tm`. -/
structure tm where
  tm_sec : Int
  tm_min : Int
  tm_hour : Int
  tm_mday : Int
  tm_mon : Int
  tm_year : Int
  tm_wday : Int
  tm_yday : Int
  tm_isdst : Int
  deriving DecidableEq, Repr

/-- The value-initialised `std::tm tm = {}`. -/
def tm_zero : tm :=
  ⟨0, 0, 0, 0, 0, 0, 0, 0, 0⟩

/-- The standard-library calls of `parse_tp_rfc2616`, which depend on the
time-zone database, the locale and the local zone of the process.
`locate_zone name` tells whether `std::chrono::locate_zone(name)` finds a zone
(it raises `std::runtime_error` when it does not). `get_time tm inp format` is
one `ss >> std::get_time(&tm, format)` on a stream freshly set to `inp`: the
broken-down time it leaves behind and whether the stream is free of `fail()`.
`mktime` and `from_time_t` are the two conversions of the last line. -/
structure std_library where
  locate_zone : String → Bool
  get_time : tm → String → String → tm × Bool
  mktime : tm → Int
  from_time_t : Int → WebDAV.time_point

/-- The six format strings, in the order of the array `formats`: `rfc822_1`,
`rfc822_2`, `rfc850_1`, `rfc850_2`, `ansi_1`, `ansi_2`. -/
def formats : List String :=
  [ "%a, %d %b %Y %H:%M:%S",
    "%d %b %Y %H:%M:%S",
    "%a, %d-%b-%y %H:%M:%S",
    "%d-%b-%y %H:%M:%S",
    "%a %b %d %H:%M:%S %Y",
    "%a %b  %d %H:%M:%S %Y" ]

/-- Index of the last occurrence of `c`, scanning from index `i` on with the
last hit so far in `found`. -/
def rfind_from (c : Char) : List Char → Nat → Option Nat → Option Nat
  | [], _, found => found
  | x :: xs, i, found => rfind_from c xs (i + 1) (if x = c then some i else found)

/-- The call `s.rfind(c, s.length())`: the index of the last `c` in `s`; `none`
stands for `npos`. -/
def rfind (c : Char) (s : List Char) : Option Nat :=
  rfind_from c s 0 none

/-- The call `s.substr(pos, n)` for a `pos` within the string. -/
def substr (s : List Char) (pos n : Nat) : List Char :=
  (s.drop pos).take n

/-- The zone token `tz_str = inp.substr(last_space + 1, inp.length() - last_space - 1)`:
the text after the last space. With `last_space == npos` the unsigned
arithmetic wraps, `npos + 1` to `0` and `length - npos - 1` to `length`, so the
token is the whole string. -/
def tz_str (inp : String) : String :=
  match rfind ' ' inp.data with
  | some last_space => ⟨substr inp.data (last_space + 1) (inp.data.length - last_space - 1)⟩
  | none => ⟨substr inp.data 0 inp.data.length⟩

/-- The `try { tz_ptr = locate_zone(tz_str); inp = inp.substr(0, last_space); }
catch (std::runtime_error&) {}` block: the input without its zone token when the
token names a zone, the input unchanged when `locate_zone` raises. With
`last_space == npos` the call `substr(0, npos)` keeps the whole string. -/
def strip_zone (lib : std_library) (inp : String) : String :=
  if lib.locate_zone (tz_str inp) then
    match rfind ' ' inp.data with
    | some last_space => ⟨substr inp.data 0 last_space⟩
    | none => inp
  else inp

/-- The loop `for (auto&& format : formats)`: each turn reads `inp` with the next
format into the same `tm`; the first turn that does not fail ends the loop,
a failed turn resets the stream and goes on. The result is the `tm` the loop
leaves behind, matched or not. -/
def try_formats (lib : std_library) (inp : String) : List String → tm → tm
  | [], t => t
  | format :: rest, t =>
    match lib.get_time t inp format with
    | (t1, true) => t1
    | (t1, false) => try_formats lib inp rest t1

/-- The function `utils::parse_tp_rfc2616`: strip a known zone token, run the
format loop, and return `from_time_t(mktime(&tm))`. Its only `return` hands
back a time point. -/
def parse_tp_rfc2616 (lib : std_library) (input : String) : Option WebDAV.time_point :=
  let inp := strip_zone lib input
  let t := try_formats lib inp formats tm_zero
  let tp := lib.from_time_t (lib.mktime t)
  some tp

/-- Whether some format of the list reads `inp`, each tried on the `tm` the
earlier ones left behind: the loop ends on a match. -/
def matches_some_format (lib : std_library) (inp : String) : List String → tm → Bool
  | [], _ => false
  | format :: rest, t =>
    match lib.get_time t inp format with
    | (_, true) => true
    | (t1, false) => matches_some_format lib inp rest t1

/-- A library stand-in for concrete runs: its zone database knows `GMT` and
`UTC`, its `get_time` reads nothing and fails on every input, `mktime` of any
`tm` is `-1`, and a time point counts seconds. -/
def no_match_library : std_library where
  locate_zone := fun name => decide (name = "GMT") || decide (name = "UTC")
  get_time := fun t _ _ => (t, false)
  mktime := fun _ => -1
  from_time_t := fun t => t

end utils

namespace WebDAV

/-! ## Theorems: the error model -/

/-- C1: `is_success` holds exactly when the curl code is `CURLE_OK`, the other
error is `OTHER_OK` and the HTTP code lies in `[200, 300)`; with both other
layers fine it is false at 199 and 300 and true at 200 and 299. -/
theorem is_success_iff :
    (∀ r : RequestResult,
      r.is_success = true ↔
        (r.curlCode = CURLE_OK ∧ r.otherError = OtherError.OTHER_OK ∧
          200 ≤ r.httpCode ∧ r.httpCode < 300)) ∧
    RequestResult.is_success ⟨CURLE_OK, OtherError.OTHER_OK, 199⟩ = false ∧
    RequestResult.is_success ⟨CURLE_OK, OtherError.OTHER_OK, 200⟩ = true ∧
    RequestResult.is_success ⟨CURLE_OK, OtherError.OTHER_OK, 299⟩ = true ∧
    RequestResult.is_success ⟨CURLE_OK, OtherError.OTHER_OK, 300⟩ = false := by
  refine ⟨?_, by decide, by decide, by decide, by decide⟩
  intro r
  simp only [RequestResult.is_success, check_curl_code, check_http_code, check_other_error,
    Bool.and_eq_true, beq_iff_eq, decide_eq_true_eq, ge_iff_le]
  tauto

/-- C2: `to_error` is the prioritised classification (transport, then
application, then HTTP status, else nothing); a failed transport with HTTP 500
and a fine application status gives the transport error, not the HTTP one. -/
theorem to_error_eq_classify :
    (∀ r : RequestResult, r.to_error = classify r) ∧
    (∀ c : CURLcode, c ≠ CURLE_OK →
      RequestResult.to_error ⟨c, OtherError.OTHER_OK, 500⟩ = some (error.curl_error c) ∧
      RequestResult.to_error ⟨c, OtherError.OTHER_OK, 500⟩ ≠ some (error.http_error 500)) := by
  constructor
  · intro r
    rcases r with ⟨c, o, h⟩
    by_cases hc : c = CURLE_OK <;> by_cases ho : o = OtherError.OTHER_OK <;>
      by_cases hh : (200 ≤ h ∧ h < 300) <;>
      simp [RequestResult.to_error, classify, check_curl_code, check_http_code,
        check_other_error, hc, ho, hh]
  · intro c hc
    simp [RequestResult.to_error, check_curl_code, hc]

/-- C3: `to_error` gives no error exactly on a success, and on every
non-success it gives exactly one error, of one of the three variants. -/
theorem to_error_none_iff_is_success (r : RequestResult) :
    (r.to_error = none ↔ r.is_success = true) ∧
    (r.is_success = false →
      ∃! e : error, r.to_error = some e ∧
        (e = error.curl_error r.curlCode ∨ e = error.unspecified_error ∨
          e = error.http_error r.httpCode)) := by
  rcases r with ⟨c, o, h⟩
  by_cases hc : c = CURLE_OK
  · by_cases ho : o = OtherError.OTHER_OK
    · by_cases hh : (200 ≤ h ∧ h < 300)
      · simp [RequestResult.to_error, RequestResult.is_success, check_curl_code,
          check_http_code, check_other_error, hc, ho, hh]
      · have hb : (decide (200 ≤ h) && decide (h < 300)) = false := by
          simpa [Bool.and_eq_true] using hh
        have he : RequestResult.to_error ⟨c, o, h⟩ = some (error.http_error h) := by
          simp [RequestResult.to_error, check_curl_code, check_http_code, check_other_error,
            hc, ho, hb]
        refine ⟨?_, fun _ => ⟨error.http_error h, ⟨he, Or.inr (Or.inr rfl)⟩, ?_⟩⟩
        · rw [he]
          simp [RequestResult.is_success, check_curl_code, check_http_code,
            check_other_error, hc, ho, hb]
        · rintro e ⟨h1, _⟩
          rw [he] at h1
          exact (Option.some.inj h1).symm
    · have he : RequestResult.to_error ⟨c, o, h⟩ = some error.unspecified_error := by
        simp [RequestResult.to_error, check_curl_code, check_other_error, hc, ho]
      refine ⟨?_, fun _ => ⟨error.unspecified_error, ⟨he, Or.inr (Or.inl rfl)⟩, ?_⟩⟩
      · rw [he]
        simp [RequestResult.is_success, check_other_error, ho]
      · rintro e ⟨h1, _⟩
        rw [he] at h1
        exact (Option.some.inj h1).symm
  · have he : RequestResult.to_error ⟨c, o, h⟩ = some (error.curl_error c) := by
      simp [RequestResult.to_error, check_curl_code, hc]
    refine ⟨?_, fun _ => ⟨error.curl_error c, ⟨he, Or.inl rfl⟩, ?_⟩⟩
    · rw [he]
      simp [RequestResult.is_success, check_curl_code, hc]
    · rintro e ⟨h1, _⟩
      rw [he] at h1
      exact (Option.some.inj h1).symm

theorem to_error_none_iff_is_success_witness :
    RequestResult.is_success ⟨CURLE_OK, OtherError.OTHER_OK, 404⟩ = false ∧
    ∃! e : error,
      RequestResult.to_error ⟨CURLE_OK, OtherError.OTHER_OK, 404⟩ = some e ∧
        (e = error.curl_error CURLE_OK ∨ e = error.unspecified_error ∨
          e = error.http_error 404) :=
  ⟨by decide,
    (to_error_none_iff_is_success ⟨CURLE_OK, OtherError.OTHER_OK, 404⟩).2 (by decide)⟩

end WebDAV

namespace WebDAV

/-! ## Lemmas: `std::stoll`, the size block and the entry parser -/

theorem takeWhile_isDigit_of_head_not_digit (rest : List Char)
    (h : (match rest with
          | c :: _ => c.isDigit
          | [] => false) = false) :
    rest.takeWhile Char.isDigit = [] := by
  cases rest with
  | nil => rfl
  | cons c cs =>
    simp only at h
    simp [List.takeWhile, h]

theorem stoll_invalid_of_no_leading_number (text : String)
    (h : starts_with_number text = false) :
    stoll text = Except.error exception.invalid_argument := by
  unfold starts_with_number at h
  unfold stoll
  simp only [takeWhile_isDigit_of_head_not_digit _ h, if_true]

theorem parse_size_of_no_leading_number (text : String)
    (h : starts_with_number text = false) :
    parse_size text = Except.ok none := by
  unfold parse_size
  rw [stoll_invalid_of_no_leading_number text h]

theorem static_cast_int_of_lt (n : Nat) (h : n < 2 ^ 31) : static_cast_int n = (n : Int) := by
  have h32 : n % 2 ^ 32 = n := Nat.mod_eq_of_lt (by omega)
  unfold static_cast_int
  rw [h32, if_pos h]

theorem curl_unescape_of_nonneg (s : String) (length : Int) (h : 0 ≤ length) :
    ∃ decoded, curl_unescape s length = some decoded := by
  unfold curl_unescape
  have hn : ¬ length < 0 := by omega
  simp only [hn, if_false]
  exact ⟨_, rfl⟩

theorem curl_unescape_of_short (s : String) (h : s.utf8ByteSize < 2 ^ 31) :
    ∃ decoded, curl_unescape s (static_cast_int s.utf8ByteSize) = some decoded := by
  rw [static_cast_int_of_lt _ h]
  exact curl_unescape_of_nonneg s _ (Int.ofNat_nonneg _)

/-- The encoded text handed to `curl_unescape` is the href text, or it is
empty (when the first child of `href` is not character data). -/
theorem encoded_href_cases (node : pugi.xml_node) :
    encoded_href node = href_text node ∨ encoded_href node = "" := by
  unfold encoded_href href_text
  cases pugi.select_node (some node) "href" with
  | none => exact Or.inr rfl
  | some h =>
    cases h with
    | pcdata v => exact Or.inr rfl
    | element n cs =>
      cases cs with
      | nil => exact Or.inr rfl
      | cons c rest =>
        cases c with
        | pcdata v => exact Or.inl rfl
        | element n2 cs2 => exact Or.inr rfl

theorem encoded_href_short (node : pugi.xml_node)
    (h : (href_text node).utf8ByteSize < 2 ^ 31) : (encoded_href node).utf8ByteSize < 2 ^ 31 := by
  rcases encoded_href_cases node with e | e
  · rw [e]
    exact h
  · rw [e]
    decide

theorem curl_unescape_of_negative (s : String) (length : Int) (h : length < 0) :
    curl_unescape s length = none := by
  unfold curl_unescape
  simp [h]

theorem stoll_error_cases (text : String) (e : exception)
    (h : stoll text = Except.error e) :
    e = exception.invalid_argument ∨ e = exception.out_of_range := by
  unfold stoll at h
  generalize split_sign (text.data.dropWhile isspace) = p at h
  obtain ⟨negative, rest⟩ := p
  simp only at h
  split_ifs at h <;> injection h with h <;> subst h <;> simp

/-- The body of `resource_from_xml_node` with the node lookups named. -/
theorem resource_from_xml_node_eq (pt : String → Option time_point) (node : pugi.xml_node) :
    resource_from_xml_node pt node =
      match curl_unescape (encoded_href node)
          (static_cast_int (encoded_href node).utf8ByteSize) with
      | none => Except.error exception.logic_error
      | some _ =>
        match parse_size (content_length_text node) with
        | Except.error e => Except.error e
        | Except.ok size =>
          Except.ok (some
            { href := href_text node
              display_name :=
                some (pugi.text_get (pugi.select_node (prop_node node) "displayname"))
              size := size
              modified := pt (pugi.text_get (pugi.select_node (prop_node node) "getlastmodified"))
              created := pt (pugi.text_get (pugi.select_node (prop_node node) "creationdate"))
              type := some (pugi.name (pugi.first_child
                (pugi.select_node (prop_node node) "resourcetype")))
              etag := some (pugi.text_get (pugi.select_node (prop_node node) "getetag")) }) :=
  rfl

theorem resource_from_xml_node_of_parse_size (pt : String → Option time_point)
    (node : pugi.xml_node) (size : Option Int)
    (hl : (encoded_href node).utf8ByteSize < 2 ^ 31)
    (h : parse_size (content_length_text node) = Except.ok size) :
    ∃ r : resource, resource_from_xml_node pt node = Except.ok (some r) ∧ r.size = size ∧
      r.href = href_text node := by
  obtain ⟨decoded, hd⟩ := curl_unescape_of_short _ hl
  rw [resource_from_xml_node_eq, hd, h]
  exact ⟨_, rfl, rfl, rfl⟩

theorem resource_from_xml_node_some (pt : String → Option time_point)
    (node : pugi.xml_node) (r : resource)
    (h : resource_from_xml_node pt node = Except.ok (some r)) :
    r.href = href_text node ∧ parse_size (content_length_text node) = Except.ok r.size := by
  rw [resource_from_xml_node_eq] at h
  cases hd : curl_unescape (encoded_href node)
      (static_cast_int (encoded_href node).utf8ByteSize) with
  | none => rw [hd] at h; cases h
  | some decoded =>
    rw [hd] at h
    simp only at h
    cases hp : parse_size (content_length_text node) with
    | error e => rw [hp] at h; cases h
    | ok size =>
      rw [hp] at h
      simp only [Except.ok.injEq, Option.some.injEq] at h
      subst h
      exact ⟨rfl, rfl⟩

/-! ## Lemmas: the loop of `Client::info` -/

theorem info_loop_some (pt : String → Option time_point) (target_path : String)
    (responses : List pugi.xml_node) (r : resource)
    (h : Client.info_loop pt target_path responses = Except.ok (some r)) :
    ∃ response ∈ responses, resource_from_xml_node pt response = Except.ok (some r) ∧
      without_sep r.href = without_sep target_path := by
  induction responses with
  | nil => simp [Client.info_loop] at h
  | cons x rest ih =>
    unfold Client.info_loop at h
    cases hx : resource_from_xml_node pt x with
    | error e => rw [hx] at h; cases h
    | ok o =>
      cases o with
      | none =>
        rw [hx] at h
        obtain ⟨y, hy, hr⟩ := ih h
        exact ⟨y, List.mem_cons_of_mem _ hy, hr⟩
      | some res =>
        rw [hx] at h
        by_cases hm : without_sep res.href = without_sep target_path
        · simp only [hm, if_true, Except.ok.injEq, Option.some.injEq] at h
          subst h
          exact ⟨x, List.mem_cons_self _ _, hx, hm⟩
        · simp only [hm, if_false] at h
          obtain ⟨y, hy, hr⟩ := ih h
          exact ⟨y, List.mem_cons_of_mem _ hy, hr⟩

theorem info_loop_none (pt : String → Option time_point) (target_path : String)
    (responses : List pugi.xml_node)
    (h : ∀ response ∈ responses, ∃ r : resource,
      resource_from_xml_node pt response = Except.ok (some r) ∧
        without_sep r.href ≠ without_sep target_path) :
    Client.info_loop pt target_path responses = Except.ok none := by
  induction responses with
  | nil => rfl
  | cons x rest ih =>
    obtain ⟨r, hx, hne⟩ := h x (List.mem_cons_self _ _)
    unfold Client.info_loop
    rw [hx]
    simp only [hne, if_false]
    exact ih (fun y hy => h y (List.mem_cons_of_mem _ hy))

end WebDAV

namespace WebDAV

/-! ## Theorems: `Client::info` -/

/-- C4 (the code at the failing input): the request succeeded and the
multistatus holds one entry, for the unrelated href `/other.txt`, whose
`getcontentlength` is `9223372036854775808`; `info` for `/missing.txt` does not
return an absent result, `std::out_of_range` leaves it. -/
theorem info_raises_on_out_of_range_size (pt : String → Option time_point) :
    multistatus_ok.is_success = true ∧
    without_sep "/other.txt" ≠ without_sep "/missing.txt" ∧
    Client.info pt "/missing.txt" multistatus_ok
        (multistatus_document [response_entry "/other.txt" (some "9223372036854775808")]) =
      Except.error exception.out_of_range :=
  ⟨by decide, by decide, rfl⟩

/-- Whenever `info` returns a resource, the request succeeded and the resource
is the parse of a response entry of the multistatus whose href equals the
target path, a trailing separator ignored on both sides. -/
theorem info_some_is_matching_entry (pt : String → Option time_point) (target_path : String)
    (result : RequestResult) (document : pugi.xml_node) (r : resource)
    (h : Client.info pt target_path result document = Except.ok (some r)) :
    result.is_success = true ∧
    ∃ response ∈ pugi.select_nodes (pugi.select_node (some document) "multistatus") "response",
      resource_from_xml_node pt response = Except.ok (some r) ∧
        without_sep r.href = without_sep target_path := by
  unfold Client.info at h
  cases hs : result.is_success with
  | false => simp [hs] at h
  | true =>
    simp only [hs, Bool.not_true, Bool.false_eq_true, if_false] at h
    exact ⟨rfl, info_loop_some pt target_path _ r h⟩

theorem info_some_is_matching_entry_witness :
    RequestResult.is_success multistatus_ok = true ∧
    ∃ response ∈ pugi.select_nodes
        (pugi.select_node
          (some (multistatus_document
            [response_entry "/other.txt" (some "92"), response_entry "/a/" none]))
          "multistatus") "response",
      resource_from_xml_node (fun _ => none) response =
          Except.ok (some ⟨"/a/", some "", none, none, none, some "", some ""⟩) ∧
        without_sep (resource.href ⟨"/a/", some "", none, none, none, some "", some ""⟩) =
          without_sep "/a" :=
  info_some_is_matching_entry (fun _ => none) "/a" multistatus_ok
    (multistatus_document [response_entry "/other.txt" (some "92"), response_entry "/a/" none])
    ⟨"/a/", some "", none, none, none, some "", some ""⟩ rfl

/-- When the request succeeded, every response entry of the multistatus parses
and none has an href equal to the target path (a trailing separator ignored),
`info` returns an absent result. -/
theorem info_none_of_no_match (pt : String → Option time_point) (target_path : String)
    (result : RequestResult) (document : pugi.xml_node)
    (hs : result.is_success = true)
    (h : ∀ response ∈
        pugi.select_nodes (pugi.select_node (some document) "multistatus") "response",
      ∃ r : resource, resource_from_xml_node pt response = Except.ok (some r) ∧
        without_sep r.href ≠ without_sep target_path) :
    Client.info pt target_path result document = Except.ok none := by
  unfold Client.info
  simp only [hs, Bool.not_true, Bool.false_eq_true, if_false]
  exact info_loop_none pt target_path _ h

theorem info_none_of_no_match_witness :
    Client.info (fun _ => none) "/missing.txt" multistatus_ok
        (multistatus_document [response_entry "/other.txt" (some "92")]) = Except.ok none :=
  info_none_of_no_match (fun _ => none) "/missing.txt" multistatus_ok
    (multistatus_document [response_entry "/other.txt" (some "92")]) (by decide)
    (by
      intro response hmem
      have hr : response = response_entry "/other.txt" (some "92") := by
        simpa [multistatus_document, pugi.select_node, pugi.select_nodes, pugi.xml_node.children,
          pugi.matches_local, response_entry, pugi.xml_node.is_element, pugi.xml_node.name,
          pugi.local_name, pugi.local_name_chars] using hmem
      subst hr
      exact ⟨⟨"/other.txt", some "", some 92, none, none, some "", some ""⟩, rfl, by decide⟩)

/-- When the request did not succeed, `info` returns an absent result and
reads nothing of the document. -/
theorem info_none_of_failure (pt : String → Option time_point) (target_path : String)
    (result : RequestResult) (document : pugi.xml_node)
    (hs : result.is_success = false) :
    Client.info pt target_path result document = Except.ok none := by
  unfold Client.info
  simp [hs]

theorem info_none_of_failure_witness :
    Client.info (fun _ => none) "/a" ⟨CURLE_OK, OtherError.OTHER_OK, 404⟩
        (multistatus_document [response_entry "/a" none]) = Except.ok none :=
  info_none_of_failure (fun _ => none) "/a" ⟨CURLE_OK, OtherError.OTHER_OK, 404⟩
    (multistatus_document [response_entry "/a" none]) (by decide)

end WebDAV

namespace WebDAV

/-! ## Theorems: `resource_from_xml_node` -/

/-- C5 (the code at the failing input): a response node with no `href` child,
here one with no child at all, does not yield "no result": the function returns
a resource whose href is the empty string. -/
theorem resource_from_xml_node_without_href (pt : String → Option time_point) :
    pugi.select_node (some (pugi.xml_node.element "D:response" [])) "href" = none ∧
    resource_from_xml_node pt (pugi.xml_node.element "D:response" []) =
      Except.ok (some ⟨"", some "", none, pt "", pt "", some "", some ""⟩) :=
  ⟨rfl, rfl⟩

/-- The function `resource_from_xml_node` has no path that returns "no
result": whatever the node, its outcome is a resource or an exception. -/
theorem resource_from_xml_node_never_none (pt : String → Option time_point)
    (node : pugi.xml_node) :
    resource_from_xml_node pt node ≠ Except.ok none := by
  rw [resource_from_xml_node_eq]
  split
  · simp
  · split <;> simp

/-- C6 (the code at the failing input): for the entry whose href text is
`/a%20b` the href of the returned resource is that raw text, while its
percent-decoded form is `/a b`. -/
theorem resource_from_xml_node_href_is_raw (pt : String → Option time_point) :
    href_text (response_entry "/a%20b" none) = "/a%20b" ∧
    encoded_href (response_entry "/a%20b" none) = "/a%20b" ∧
    curl_unescape "/a%20b" (static_cast_int ("/a%20b" : String).utf8ByteSize) = some "/a b" ∧
    ∃ r : resource,
      resource_from_xml_node pt (response_entry "/a%20b" none) = Except.ok (some r) ∧
        r.href = "/a%20b" ∧
        some r.href ≠ curl_unescape "/a%20b" (static_cast_int ("/a%20b" : String).utf8ByteSize) :=
  ⟨rfl, rfl, by decide, ⟨"/a%20b", some "", none, pt "", pt "", some "", some ""⟩, rfl, rfl,
    (by decide : some "/a%20b" ≠
      curl_unescape "/a%20b" (static_cast_int ("/a%20b" : String).utf8ByteSize))⟩

/-- The href of every returned resource is the text of the `href` child as
it stands in the document; the decoded string the function computes is not
used. -/
theorem resource_href_eq_href_text (pt : String → Option time_point) (node : pugi.xml_node)
    (r : resource) (h : resource_from_xml_node pt node = Except.ok (some r)) :
    r.href = href_text node :=
  (resource_from_xml_node_some pt node r h).1

theorem resource_href_eq_href_text_witness :
    resource.href ⟨"/a%20b", some "", none, none, none, some "", some ""⟩ =
      href_text (response_entry "/a%20b" none) :=
  resource_href_eq_href_text (fun _ => none) (response_entry "/a%20b" none)
    ⟨"/a%20b", some "", none, none, none, some "", some ""⟩ rfl

/-- Whenever the byte length of the encoded href text is negative once cast
to `int`, `curl_unescape` answers with the null pointer and `std::logic_error`
leaves the function before anything else is read. -/
theorem resource_from_xml_node_of_negative_length (pt : String → Option time_point)
    (node : pugi.xml_node) (h : static_cast_int (encoded_href node).utf8ByteSize < 0) :
    resource_from_xml_node pt node = Except.error exception.logic_error := by
  rw [resource_from_xml_node_eq, curl_unescape_of_negative _ _ h]

theorem utf8ByteSize_replicate_a (n : Nat) :
    (String.mk (List.replicate n 'a')).utf8ByteSize = n := by
  have hgo : ∀ k : Nat, String.utf8ByteSize.go (List.replicate k 'a') = k := by
    intro k
    induction k with
    | zero => rfl
    | succ k ih =>
      show String.utf8ByteSize.go (List.replicate k 'a') + Char.utf8Size 'a' = k + 1
      rw [ih]
      rfl
  exact hgo n

theorem encoded_href_response_entry (href : String) (content_length : Option String) :
    encoded_href (response_entry href content_length) = href :=
  rfl

theorem href_text_response_entry (href : String) (content_length : Option String) :
    href_text (response_entry href content_length) = href :=
  rfl

theorem response_entry_without_content_length (href : String) :
    pugi.select_node (prop_node (response_entry href none)) "getcontentlength" = none :=
  rfl

/-- C7 (the code at the failing input): a response entry with no
`getcontentlength` whose href text is `2^31` bytes long does not yield a
resource with absent size. The length cast to `int` is negative,
`curl_unescape` answers with the null pointer, and `std::logic_error` leaves the
function. -/
theorem resource_from_xml_node_raises_on_long_href :
    href_text (response_entry long_href none) = long_href ∧
    long_href.utf8ByteSize = 2 ^ 31 ∧
    static_cast_int long_href.utf8ByteSize < 0 ∧
    pugi.select_node (prop_node (response_entry long_href none)) "getcontentlength" = none ∧
    ∀ pt : String → Option time_point,
      resource_from_xml_node pt (response_entry long_href none) =
        Except.error exception.logic_error := by
  have hsize : long_href.utf8ByteSize = 2 ^ 31 := utf8ByteSize_replicate_a (2 ^ 31)
  have hneg : static_cast_int long_href.utf8ByteSize < 0 := by
    rw [hsize]
    decide
  refine ⟨href_text_response_entry long_href none, hsize, hneg,
    response_entry_without_content_length long_href, fun pt => ?_⟩
  apply resource_from_xml_node_of_negative_length
  rw [encoded_href_response_entry]
  exact hneg

/-- A response node whose href text is shorter than `2^31` bytes and whose
`propstat/prop` subtree has no `getcontentlength` child yields a resource, not
a failure, and the size of that resource is absent. -/
theorem size_absent_without_getcontentlength (pt : String → Option time_point)
    (node : pugi.xml_node)
    (hl : (href_text node).utf8ByteSize < 2 ^ 31)
    (h : pugi.select_node (prop_node node) "getcontentlength" = none) :
    ∃ r : resource, resource_from_xml_node pt node = Except.ok (some r) ∧ r.size = none := by
  have ht : content_length_text node = "" := by
    unfold content_length_text
    rw [h]
    rfl
  have hp : parse_size (content_length_text node) = Except.ok none := by
    rw [ht]
    rfl
  obtain ⟨r, hr, hsize, _⟩ :=
    resource_from_xml_node_of_parse_size pt node none (encoded_href_short node hl) hp
  exact ⟨r, hr, hsize⟩

theorem size_absent_without_getcontentlength_witness :
    ∃ r : resource,
      resource_from_xml_node (fun _ => none) (response_entry "/dir/file.txt" none) =
        Except.ok (some r) ∧ r.size = none :=
  size_absent_without_getcontentlength (fun _ => none) (response_entry "/dir/file.txt" none)
    (by decide) rfl

/-- C8 as stated fails: the text `12abc` is not, as a whole, a decimal
integer, yet the resource of an entry with that `getcontentlength` text has the
size 12, the number its leading digits denote. -/
theorem size_present_on_leading_number :
    is_decimal_integer "12abc" = false ∧
    content_length_text (response_entry "/f" (some "12abc")) = "12abc" ∧
    ∀ pt : String → Option time_point, ∃ r : resource,
      resource_from_xml_node pt (response_entry "/f" (some "12abc")) = Except.ok (some r) ∧
        r.size = some 12 ∧ r.size ≠ none :=
  ⟨by decide, rfl, fun pt => ⟨⟨"/f", some "", some 12, pt "", pt "", some "", some ""⟩, rfl, rfl,
    (by decide : (some 12 : Option Int) ≠ none)⟩⟩

/-- C8 (amended): a response node whose href text is shorter than `2^31` bytes
and whose `getcontentlength` text does not start with a number (optional white
space, an optional sign, then a decimal digit) yields a resource whose size is
absent. -/
theorem size_absent_without_leading_number (pt : String → Option time_point)
    (node : pugi.xml_node)
    (hl : (href_text node).utf8ByteSize < 2 ^ 31)
    (h : starts_with_number (content_length_text node) = false) :
    ∃ r : resource, resource_from_xml_node pt node = Except.ok (some r) ∧ r.size = none := by
  obtain ⟨r, hr, hsize, _⟩ := resource_from_xml_node_of_parse_size pt node none
    (encoded_href_short node hl) (parse_size_of_no_leading_number _ h)
  exact ⟨r, hr, hsize⟩

theorem size_absent_without_leading_number_witness :
    ∃ r : resource,
      resource_from_xml_node (fun _ => none) (response_entry "/f" (some "abc12")) =
        Except.ok (some r) ∧ r.size = none :=
  size_absent_without_leading_number (fun _ => none) (response_entry "/f" (some "abc12"))
    (by decide) (by decide)

/-- C9 (the code at the failing input): for the `getcontentlength` text
`9223372036854775808`, one past the largest 64-bit signed integer, the function
returns nothing: `std::out_of_range` leaves it. -/
theorem resource_from_xml_node_raises_out_of_range (pt : String → Option time_point) :
    content_length_text (response_entry "/f" (some "9223372036854775808")) =
      "9223372036854775808" ∧
    resource_from_xml_node pt (response_entry "/f" (some "9223372036854775808")) =
      Except.error exception.out_of_range :=
  ⟨rfl, rfl⟩

/-- C10 (the code at the failing input): for an entry with no `displayname`,
`resourcetype` or `getetag` under `propstat/prop`, the three fields of the
returned resource are not absent: each holds the empty string. -/
theorem text_fields_present_when_nodes_missing (pt : String → Option time_point) :
    pugi.select_node (prop_node (response_entry "/f" none)) "displayname" = none ∧
    pugi.select_node (prop_node (response_entry "/f" none)) "resourcetype" = none ∧
    pugi.select_node (prop_node (response_entry "/f" none)) "getetag" = none ∧
    ∃ r : resource,
      resource_from_xml_node pt (response_entry "/f" none) = Except.ok (some r) ∧
        r.display_name = some "" ∧ r.type = some "" ∧ r.etag = some "" :=
  ⟨rfl, rfl, rfl, ⟨"/f", some "", none, pt "", pt "", some "", some ""⟩, rfl, rfl, rfl, rfl⟩

/-- The text fields of a returned resource always hold a value: no node
lookup can leave `display_name`, `type` or `etag` absent. -/
theorem text_fields_always_present (pt : String → Option time_point) (node : pugi.xml_node)
    (r : resource) (h : resource_from_xml_node pt node = Except.ok (some r)) :
    r.display_name ≠ none ∧ r.type ≠ none ∧ r.etag ≠ none := by
  rw [resource_from_xml_node_eq] at h
  split at h
  · cases h
  · split at h
    · cases h
    · simp only [Except.ok.injEq, Option.some.injEq] at h
      subst h
      simp

theorem text_fields_always_present_witness :
    resource.display_name ⟨"/f", some "", none, none, none, some "", some ""⟩ ≠ none ∧
    resource.type ⟨"/f", some "", none, none, none, some "", some ""⟩ ≠ none ∧
    resource.etag ⟨"/f", some "", none, none, none, some "", some ""⟩ ≠ none :=
  text_fields_always_present (fun _ => none) (response_entry "/f" none)
    ⟨"/f", some "", none, none, none, some "", some ""⟩ rfl

/-- Two exceptions can leave `resource_from_xml_node`, and nothing else makes
it fail: the `logic_error` of a href text whose length is negative once cast to
`int`, and, when that length is fine, the `out_of_range` of `std::stoll` on the
`getcontentlength` text. -/
theorem resource_from_xml_node_raises_iff (pt : String → Option time_point)
    (node : pugi.xml_node) (e : exception) :
    resource_from_xml_node pt node = Except.error e ↔
      ((e = exception.logic_error ∧ static_cast_int (encoded_href node).utf8ByteSize < 0) ∨
        (e = exception.out_of_range ∧ 0 ≤ static_cast_int (encoded_href node).utf8ByteSize ∧
          stoll (content_length_text node) = Except.error exception.out_of_range)) := by
  rw [resource_from_xml_node_eq]
  by_cases hneg : static_cast_int (encoded_href node).utf8ByteSize < 0
  · rw [curl_unescape_of_negative _ _ hneg]
    simp only [Except.error.injEq]
    constructor
    · intro h
      exact Or.inl ⟨h.symm, hneg⟩
    · rintro (⟨he, _⟩ | ⟨_, hnn, _⟩)
      · exact he.symm
      · omega
  · obtain ⟨decoded, hd⟩ := curl_unescape_of_nonneg (encoded_href node) _ (Int.not_lt.mp hneg)
    rw [hd]
    simp only [hneg, and_false, false_or, Int.not_lt.mp hneg, true_and]
    unfold parse_size
    cases hs : stoll (content_length_text node) with
    | ok v => simp
    | error e2 =>
      rcases stoll_error_cases _ _ hs with h2 | h2
      · subst h2
        simp
      · subst h2
        simp only [Except.error.injEq, and_true]
        exact eq_comm

end WebDAV

namespace utils

/-! ## Lemmas: the zone token of `parse_tp_rfc2616` -/

theorem rfind_from_append (c : Char) (xs ys : List Char) (i : Nat) (found : Option Nat) :
    rfind_from c (xs ++ ys) i found = rfind_from c ys (i + xs.length) (rfind_from c xs i found) := by
  induction xs generalizing i found with
  | nil => simp [rfind_from]
  | cons x xs ih =>
    show rfind_from c (xs ++ ys) (i + 1) (if x = c then some i else found) =
      rfind_from c ys (i + (xs.length + 1)) (rfind_from c xs (i + 1) (if x = c then some i else found))
    rw [ih, Nat.add_assoc, Nat.add_comm 1]

theorem rfind_from_of_not_mem (c : Char) (ys : List Char) (h : c ∉ ys) (i : Nat)
    (found : Option Nat) : rfind_from c ys i found = found := by
  induction ys generalizing i with
  | nil => rfl
  | cons y ys ih =>
    have hy : y ≠ c := fun e => h (e ▸ List.mem_cons_self _ _)
    have hys : c ∉ ys := fun e => h (List.mem_cons_of_mem _ e)
    simp only [rfind_from, hy, if_false]
    exact ih hys _

theorem rfind_space_before_token (s z : List Char) (h : ' ' ∉ z) :
    rfind ' ' (s ++ ' ' :: z) = some s.length := by
  unfold rfind
  rw [rfind_from_append]
  simp only [rfind_from, if_true]
  rw [rfind_from_of_not_mem ' ' z h]
  simp

theorem data_with_token (s z : String) : (s ++ " " ++ z).data = s.data ++ ' ' :: z.data := by
  simp [String.data_append]

theorem tz_str_with_token (s z : String) (h : ' ' ∉ z.data) : tz_str (s ++ " " ++ z) = z := by
  unfold tz_str
  rw [data_with_token, rfind_space_before_token _ _ h]
  simp only [substr]
  have hd : List.drop (s.data.length + 1) (s.data ++ ' ' :: z.data) = z.data := by
    rw [List.drop_append_eq_append_drop]
    simp
  rw [hd]
  have hl : (s.data ++ ' ' :: z.data).length - s.data.length - 1 = z.data.length := by
    simp only [List.length_append, List.length_cons]
    omega
  rw [hl, List.take_length]

theorem strip_zone_known (lib : std_library) (s z : String) (h : ' ' ∉ z.data)
    (hk : lib.locate_zone z = true) : strip_zone lib (s ++ " " ++ z) = s := by
  unfold strip_zone
  rw [tz_str_with_token s z h, hk]
  simp only [if_true]
  rw [data_with_token, rfind_space_before_token _ _ h]
  simp [substr]

theorem strip_zone_unknown (lib : std_library) (s z : String) (h : ' ' ∉ z.data)
    (hk : lib.locate_zone z = false) : strip_zone lib (s ++ " " ++ z) = s ++ " " ++ z := by
  unfold strip_zone
  rw [tz_str_with_token s z h, hk]
  simp

end utils

namespace utils

/-! ## Theorems: `parse_tp_rfc2616` -/

/-- The function `parse_tp_rfc2616` hands back a time point for every input,
whatever the library calls do: it has no path that returns "absent". -/
theorem parse_tp_rfc2616_always_present (lib : std_library) (input : String) :
    ∃ tp : WebDAV.time_point, parse_tp_rfc2616 lib input = some tp :=
  ⟨_, rfl⟩

/-- C11 (the code at the failing input): the text `not a date` is read by none
of the six formats, yet the timestamp returned for it is not absent: it is the
conversion of the `tm` the failed loop left behind, here `mktime`'s `-1`. -/
theorem parse_tp_rfc2616_present_without_match :
    strip_zone no_match_library "not a date" = "not a date" ∧
    matches_some_format no_match_library "not a date" formats tm_zero = false ∧
    parse_tp_rfc2616 no_match_library "not a date" = some (-1) ∧
    parse_tp_rfc2616 no_match_library "not a date" ≠ none ∧
    (∀ (lib : std_library) (input : String),
      matches_some_format lib (strip_zone lib input) formats tm_zero = false →
        parse_tp_rfc2616 lib input ≠ none) := by
  refine ⟨by decide, by decide, by decide, by decide, ?_⟩
  intro lib input _
  obtain ⟨tp, htp⟩ := parse_tp_rfc2616_always_present lib input
  rw [htp]
  exact Option.some_ne_none tp

/-- C17: two inputs that differ only in their trailing zone token, each token
free of spaces and known to the zone database, parse to the same timestamp:
the token is stripped before the formats are tried and the timestamp is the
one of the text before it, no offset applied. A trailing token that is not a
known zone stays in the text the formats are tried on. -/
theorem parse_tp_rfc2616_zone_token_ignored (lib : std_library) (s z1 z2 : String)
    (h1 : ' ' ∉ z1.data) (h2 : ' ' ∉ z2.data)
    (k1 : lib.locate_zone z1 = true) (k2 : lib.locate_zone z2 = true) :
    parse_tp_rfc2616 lib (s ++ " " ++ z1) = parse_tp_rfc2616 lib (s ++ " " ++ z2) ∧
    strip_zone lib (s ++ " " ++ z1) = s ∧
    parse_tp_rfc2616 lib (s ++ " " ++ z1) =
      some (lib.from_time_t (lib.mktime (try_formats lib s formats tm_zero))) ∧
    (∀ z : String, ' ' ∉ z.data → lib.locate_zone z = false →
      strip_zone lib (s ++ " " ++ z) = s ++ " " ++ z) := by
  have e1 := strip_zone_known lib s z1 h1 k1
  have e2 := strip_zone_known lib s z2 h2 k2
  refine ⟨?_, e1, ?_, fun z hz hk => strip_zone_unknown lib s z hz hk⟩
  · unfold parse_tp_rfc2616
    rw [e1, e2]
  · unfold parse_tp_rfc2616
    rw [e1]

theorem parse_tp_rfc2616_zone_token_ignored_witness :
    parse_tp_rfc2616 no_match_library ("Mon, 12 Jan 2024 10:00:00" ++ " " ++ "GMT") =
      parse_tp_rfc2616 no_match_library ("Mon, 12 Jan 2024 10:00:00" ++ " " ++ "UTC") ∧
    strip_zone no_match_library ("Mon, 12 Jan 2024 10:00:00" ++ " " ++ "GMT") =
      "Mon, 12 Jan 2024 10:00:00" ∧
    parse_tp_rfc2616 no_match_library ("Mon, 12 Jan 2024 10:00:00" ++ " " ++ "GMT") =
      some (no_match_library.from_time_t (no_match_library.mktime
        (try_formats no_match_library "Mon, 12 Jan 2024 10:00:00" formats tm_zero))) ∧
    (∀ z : String, ' ' ∉ z.data → no_match_library.locate_zone z = false →
      strip_zone no_match_library ("Mon, 12 Jan 2024 10:00:00" ++ " " ++ z) =
        "Mon, 12 Jan 2024 10:00:00" ++ " " ++ z) :=
  parse_tp_rfc2616_zone_token_ignored no_match_library "Mon, 12 Jan 2024 10:00:00" "GMT" "UTC"
    (by decide) (by decide) (by decide) (by decide)

end utils

namespace WebDAV

/-! ## Theorems: `Client::is_directory` -/

/-- C12 (the code at the failing input): for the type tags `collection` and
`lp1:Collection`, which contain `collection` when compared case-insensitively,
`info` returns the resource and `is_directory` is false. -/
theorem is_directory_false_on_collection_tag :
    contains_collection "collection" = true ∧
    contains_collection "lp1:Collection" = true ∧
    ∀ pt : String → Option time_point,
      (∃ r : resource,
        Client.info pt "/d" multistatus_ok (multistatus_document [typed_entry "/d/" "collection"]) =
          Except.ok (some r) ∧ r.type = some "collection") ∧
      Client.is_directory pt "/d" multistatus_ok
        (multistatus_document [typed_entry "/d/" "collection"]) = Except.ok false ∧
      Client.is_directory pt "/d" multistatus_ok
        (multistatus_document [typed_entry "/d/" "lp1:Collection"]) = Except.ok false :=
  ⟨by decide, by decide, fun pt =>
    ⟨⟨⟨"/d/", some "", none, pt "", pt "", some "collection", some ""⟩, rfl, rfl⟩, rfl, rfl⟩⟩

/-- What `is_directory` computes: it is true exactly when `info` returns a
resource whose type tag is `d:collection` or `D:collection`, letter for letter;
it is false when `info` returns a resource with any other tag and when `info`
returns absent. -/
theorem is_directory_iff (pt : String → Option time_point) (target_path : String)
    (result : RequestResult) (document : pugi.xml_node) :
    (Client.is_directory pt target_path result document = Except.ok true ↔
      ∃ r : resource, Client.info pt target_path result document = Except.ok (some r) ∧
        (r.type = some "d:collection" ∨ r.type = some "D:collection")) ∧
    (∀ r : resource, Client.info pt target_path result document = Except.ok (some r) →
      r.type ≠ some "d:collection" → r.type ≠ some "D:collection" →
        Client.is_directory pt target_path result document = Except.ok false) ∧
    (Client.info pt target_path result document = Except.ok none →
      Client.is_directory pt target_path result document = Except.ok false) := by
  unfold Client.is_directory
  cases hi : Client.info pt target_path result document with
  | error e => simp
  | ok information =>
    cases information with
    | none => simp
    | some r =>
      cases ht : r.type with
      | none => simp [ht]
      | some v =>
        simp only [ht, Except.ok.injEq, Option.some.injEq, Bool.or_eq_true, decide_eq_true_eq,
          exists_eq_left', ne_eq, false_imp_iff, and_true, true_and, reduceCtorEq]
        intro r2 hr2 h1 h2
        subst hr2
        rw [ht] at h1 h2
        simp only [Option.some.injEq] at h1 h2
        simp [h1, h2]

end WebDAV

namespace WebDAV

theorem is_directory_iff_witness :
    Client.is_directory (fun _ => none) "/d" multistatus_ok
      (multistatus_document [typed_entry "/d/" "D:collection"]) = Except.ok true :=
  (is_directory_iff (fun _ => none) "/d" multistatus_ok
    (multistatus_document [typed_entry "/d/" "D:collection"])).1.2
    ⟨⟨"/d/", some "", none, none, none, some "D:collection", some ""⟩, rfl, Or.inr rfl⟩

/-! ## Theorems: `Client::free_size` -/

/-- C15 (the code at the failing input): the request succeeded and the
response has no `quota-available-bytes` element, or has one whose text is not a
number; `free_size` does not return 0, `boost::bad_lexical_cast` leaves it. -/
theorem free_size_raises_on_unparsable_quota :
    multistatus_ok.is_success = true ∧
    Client.free_size multistatus_ok (quota_document none) =
      Except.error boost_exception.bad_lexical_cast ∧
    Client.free_size multistatus_ok (multistatus_document []) =
      Except.error boost_exception.bad_lexical_cast ∧
    Client.free_size multistatus_ok (quota_document (some "unlimited")) =
      Except.error boost_exception.bad_lexical_cast := by
  refine ⟨by decide, by decide, by decide, by decide⟩

/-- When the request is not a success, `free_size` returns 0 and reads nothing
of the document. -/
theorem free_size_zero_of_failure (result : RequestResult) (document : pugi.xml_node)
    (h : result.is_success = false) : Client.free_size result document = Except.ok 0 := by
  unfold Client.free_size
  simp [h]

theorem free_size_zero_of_failure_witness :
    Client.free_size ⟨CURLE_OK, OtherError.OTHER_OK, 404⟩ (quota_document (some "1024")) =
      Except.ok 0 :=
  free_size_zero_of_failure ⟨CURLE_OK, OtherError.OTHER_OK, 404⟩ (quota_document (some "1024"))
    (by decide)

/-- When the request succeeded, `free_size` is the cast of the text found
under `multistatus/response/propstat/prop/quota-available-bytes`: the number
it denotes when the cast returns, the exception of the cast otherwise. -/
theorem free_size_eq_lexical_cast (result : RequestResult) (document : pugi.xml_node)
    (h : result.is_success = true) :
    Client.free_size result document =
      lexical_cast_ull (pugi.value (pugi.first_child
        (pugi.select_node
          (pugi.select_node
            (pugi.select_node
              (pugi.select_node (pugi.select_node (some document) "multistatus") "response")
              "propstat")
            "prop")
          "quota-available-bytes"))) := by
  unfold Client.free_size
  simp [h]

theorem free_size_eq_lexical_cast_witness :
    Client.free_size multistatus_ok (quota_document (some "1024")) = Except.ok 1024 :=
  (free_size_eq_lexical_cast multistatus_ok (quota_document (some "1024")) (by decide)).trans
    (by decide)

/-! ## Theorems: `Client::clean` -/

/-- C14: when the existence check of `clean` reports absence (its PROPFIND is
not a success), `clean` returns true, the only request it issues is that
PROPFIND, and no DELETE is among the requests it issues. -/
theorem clean_absent_issues_no_delete {σ : Type} (server : Server σ) (webdav_root : String)
    (remote_resource : String) (w : Session σ)
    (h : (Client.check server webdav_root remote_resource w).1 = false) :
    (Client.clean server webdav_root remote_resource w).1 = true ∧
    (Client.clean server webdav_root remote_resource w).2 =
      (Client.check server webdav_root remote_resource w).2 ∧
    (∃ request result,
      (Client.clean server webdav_root remote_resource w).2.issued =
        w.issued ++ [(request, result)] ∧ request.method = "PROPFIND") ∧
    paths_of_method "DELETE"
      (issued_since w.issued.length (Client.clean server webdav_root remote_resource w).2) = [] := by
  have hc : Client.clean server webdav_root remote_resource w =
      (true, (Client.check server webdav_root remote_resource w).2) := by
    unfold Client.clean
    cases hk : Client.check server webdav_root remote_resource w with
    | mk is_existed w1 =>
      rw [hk] at h
      simp only at h
      subst h
      rfl
  rw [hc]
  refine ⟨rfl, rfl, ⟨_, _, rfl, rfl⟩, ?_⟩
  simp [Client.check, perform, issued_since, paths_of_method]

theorem clean_absent_issues_no_delete_witness :
    (Client.clean (collection_server []) "/" "/missing.txt" only_root).1 = true ∧
    (Client.clean (collection_server []) "/" "/missing.txt" only_root).2 =
      (Client.check (collection_server []) "/" "/missing.txt" only_root).2 ∧
    (∃ request result,
      (Client.clean (collection_server []) "/" "/missing.txt" only_root).2.issued =
        only_root.issued ++ [(request, result)] ∧ request.method = "PROPFIND") ∧
    paths_of_method "DELETE"
      (issued_since only_root.issued.length
        (Client.clean (collection_server []) "/" "/missing.txt" only_root).2) = [] :=
  clean_absent_issues_no_delete (collection_server []) "/" "/missing.txt" only_root (by decide)

end WebDAV

namespace WebDAV

/-! ## Theorems: the completion callback of `sync_download` and `sync_upload` -/

/-- C16 (the code at the failing input): with a completion callback supplied,
a download of a remote file that does not exist and an upload of a local file
that does not exist both return false and call the callback not once. -/
theorem callback_skipped_on_failed_precondition :
    (Client.check (collection_server []) "/" "/missing.txt" only_root).1 = false ∧
    (Client.sync_download (collection_server []) "/" "/missing.txt" true only_root).returned =
      false ∧
    (Client.sync_download (collection_server []) "/" "/missing.txt" true
      only_root).callback_calls = [] ∧
    (Client.sync_upload (collection_server []) "/" "/new.txt" false true only_root).returned =
      false ∧
    (Client.sync_upload (collection_server []) "/" "/new.txt" false true
      only_root).callback_calls = [] := by
  refine ⟨by decide, by decide, by decide, by decide, by decide⟩

/-- Whenever the existence check of `sync_download` fails, the call returns
false without issuing the GET and without calling the callback, supplied or
not. -/
theorem sync_download_of_failed_check {σ : Type} (server : Server σ) (webdav_root : String)
    (remote_file : String) (has_callback : Bool) (w : Session σ)
    (h : (Client.check server webdav_root remote_file w).1 = false) :
    (Client.sync_download server webdav_root remote_file has_callback w).returned = false ∧
    (Client.sync_download server webdav_root remote_file has_callback w).callback_calls = [] ∧
    (Client.sync_download server webdav_root remote_file has_callback w).session =
      (Client.check server webdav_root remote_file w).2 := by
  unfold Client.sync_download
  cases hk : Client.check server webdav_root remote_file w with
  | mk is_existed w1 =>
    rw [hk] at h
    simp only at h
    subst h
    exact ⟨rfl, rfl, rfl⟩

theorem sync_download_of_failed_check_witness :
    (Client.sync_download (collection_server []) "/" "/missing.txt" true only_root).returned =
      false ∧
    (Client.sync_download (collection_server []) "/" "/missing.txt" true
      only_root).callback_calls = [] ∧
    (Client.sync_download (collection_server []) "/" "/missing.txt" true only_root).session =
      (Client.check (collection_server []) "/" "/missing.txt" only_root).2 :=
  sync_download_of_failed_check (collection_server []) "/" "/missing.txt" true only_root
    (by decide)

/-- Once the existence check of `sync_download` has passed and a callback is
supplied, the callback is called exactly once, with the value the call
returns, whether the transfer succeeded or not. -/
theorem sync_download_calls_back_once {σ : Type} (server : Server σ) (webdav_root : String)
    (remote_file : String) (w : Session σ)
    (h : (Client.check server webdav_root remote_file w).1 = true) :
    (Client.sync_download server webdav_root remote_file true w).callback_calls =
      [(Client.sync_download server webdav_root remote_file true w).returned] := by
  unfold Client.sync_download
  cases hk : Client.check server webdav_root remote_file w with
  | mk is_existed w1 =>
    rw [hk] at h
    simp only at h
    subst h
    rfl

theorem sync_download_calls_back_once_witness :
    (Client.sync_download (collection_server []) "/" "/" true only_root).callback_calls =
      [(Client.sync_download (collection_server []) "/" "/" true only_root).returned] :=
  sync_download_calls_back_once (collection_server []) "/" "/" only_root (by decide)

/-- When the local file exists and a callback is supplied, `sync_upload` calls
the callback exactly once, with the value the call returns, whether the
transfer succeeded or not. -/
theorem sync_upload_calls_back_once {σ : Type} (server : Server σ) (webdav_root : String)
    (remote_file : String) (w : Session σ) :
    (Client.sync_upload server webdav_root remote_file true true w).callback_calls =
      [(Client.sync_upload server webdav_root remote_file true true w).returned] :=
  rfl

end WebDAV

namespace Urn

/-! ## Lemmas: segments and rendering of a path -/

/-- Segments as the constructor leaves them: none empty, none with a
separator inside. -/
theorem segments_from_clean (l : List Char) (cur : List Char) (hcur : '/' ∉ cur) :
    ∀ seg ∈ segments_from l cur, seg ≠ [] ∧ '/' ∉ seg := by
  induction l generalizing cur with
  | nil =>
    intro seg hseg
    unfold segments_from at hseg
    by_cases hc : cur = []
    · simp [hc] at hseg
    · simp only [hc, if_false, List.mem_singleton] at hseg
      subst hseg
      exact ⟨hc, hcur⟩
  | cons c rest ih =>
    intro seg hseg
    unfold segments_from at hseg
    by_cases hsep : c = '/'
    · by_cases hc : cur = []
      · simp only [hsep, hc, if_true] at hseg
        exact ih [] (by simp) seg hseg
      · simp only [hsep, hc, if_true, if_false, List.mem_cons] at hseg
        rcases hseg with h | h
        · subst h
          exact ⟨hc, hcur⟩
        · exact ih [] (by simp) seg h
    · simp only [hsep, if_false] at hseg
      refine ih (cur ++ [c]) ?_ seg hseg
      simp only [List.mem_append, List.mem_singleton, not_or]
      exact ⟨hcur, fun e => hsep e.symm⟩

theorem segments_from_separator (rest cur : List Char) :
    segments_from ('/' :: rest) cur =
      if cur = [] then segments_from rest [] else cur :: segments_from rest [] := by
  rw [segments_from]
  simp

theorem segments_from_other (c : Char) (rest cur : List Char) (hc : c ≠ '/') :
    segments_from (c :: rest) cur = segments_from rest (cur ++ [c]) := by
  rw [segments_from]
  simp [hc]

theorem segments_from_append_segment (seg rest cur : List Char) (h : '/' ∉ seg) :
    segments_from (seg ++ rest) cur = segments_from rest (cur ++ seg) := by
  induction seg generalizing cur with
  | nil => simp
  | cons c seg ih =>
    have hc : c ≠ '/' := fun e => h (e ▸ List.mem_cons_self _ _)
    have hs : '/' ∉ seg := fun e => h (List.mem_cons_of_mem _ e)
    show segments_from (c :: (seg ++ rest)) cur = _
    rw [segments_from_other c _ cur hc, ih (cur ++ [c]) hs]
    simp

theorem segments_from_flush (r cur : List Char) (hcur : cur ≠ [])
    (hr : r = [] ∨ ∃ t, r = '/' :: t) :
    segments_from r cur = cur :: segments_from r [] := by
  rcases hr with h | ⟨t, h⟩
  · subst h
    simp [segments_from, hcur]
  · subst h
    simp [segments_from, hcur]

theorem render_segments_shape (xs : List (List Char)) (tail : List Char)
    (ht : tail = [] ∨ ∃ t, tail = '/' :: t) :
    render_segments xs ++ tail = [] ∨ ∃ t, render_segments xs ++ tail = '/' :: t := by
  cases xs with
  | nil => simpa [render_segments] using ht
  | cons seg rest => exact Or.inr ⟨_, rfl⟩

theorem segments_from_render (xs : List (List Char))
    (hxs : ∀ seg ∈ xs, seg ≠ [] ∧ '/' ∉ seg) (tail : List Char)
    (ht : tail = [] ∨ ∃ t, tail = '/' :: t) :
    segments_from (render_segments xs ++ tail) [] = xs ++ segments_from tail [] := by
  induction xs with
  | nil => simp [render_segments]
  | cons seg rest ih =>
    have hseg := hxs seg (List.mem_cons_self _ _)
    have hrest : ∀ s ∈ rest, s ≠ [] ∧ '/' ∉ s := fun s hs => hxs s (List.mem_cons_of_mem _ hs)
    show segments_from ('/' :: (seg ++ render_segments rest) ++ tail) [] = _
    rw [List.cons_append, List.append_assoc, segments_from_separator]
    simp only [if_true]
    rw [segments_from_append_segment seg _ [] hseg.2, List.nil_append,
      segments_from_flush _ seg hseg.1 (render_segments_shape rest tail ht), ih hrest]
    rfl

/-- The segments of the rendered parent of a directory path are the segments
of the path without the last one. -/
theorem segments_of_parent_path (raw : String) :
    (Path.new (Path.new raw true).parent.path true).segments =
      (Path.new raw true).segments.dropLast := by
  have hclean := segments_from_clean raw.data [] (by simp)
  unfold Path.parent Path.path Path.new
  simp only
  by_cases h0 : segments_from raw.data [] = []
  · simp [h0, segments_from]
  · simp only [h0, if_false, if_true]
    have hdl : ∀ seg ∈ (segments_from raw.data []).dropLast, seg ≠ [] ∧ '/' ∉ seg :=
      fun seg hs => hclean seg (List.dropLast_subset _ hs)
    by_cases h1 : (segments_from raw.data []).dropLast = []
    · simp [h1, segments_from]
    · simp only [h1, if_false]
      rw [segments_from_render _ hdl ['/'] (Or.inr ⟨[], rfl⟩)]
      simp [segments_from]

/-- The parent of a path with no segment renders as the single separator. -/
theorem parent_path_of_no_segment (raw : String) (h : (Path.new raw true).segments = []) :
    (Path.new raw true).parent.path = "/" := by
  unfold Path.parent Path.path
  simp [h]

end Urn

namespace WebDAV

/-! ## Lemmas: the requests of `Client::create_directory` -/

theorem perform_spec {σ : Type} (server : Server σ) (w : Session σ) (request : Request) :
    ∃ result : RequestResult,
      (perform server w request).1 = result.is_success ∧
      (perform server w request).2.issued = w.issued ++ [(request, result)] :=
  ⟨(server w.state request).1, rfl, rfl⟩

theorem check_issued {σ : Type} (server : Server σ) (webdav_root remote_resource : String)
    (w : Session σ) :
    ∃ e : Request × RequestResult,
      (Client.check server webdav_root remote_resource w).2.issued = w.issued ++ [e] ∧
      failed_mkcol e = false :=
  ⟨_, rfl, by simp [failed_mkcol]⟩

theorem stops_single (e : Request × RequestResult) (returned : Bool)
    (he : failed_mkcol e = true → returned = false) : stops_at_failed_mkcol [e] returned := by
  intro pre x post hsplit hx
  cases pre with
  | nil =>
    simp only [List.nil_append, List.cons.injEq] at hsplit
    obtain ⟨h1, h2⟩ := hsplit
    subst h1
    exact ⟨h2.symm, he hx⟩
  | cons p pre =>
    simp only [List.cons_append, List.cons.injEq] at hsplit
    have := congrArg List.length hsplit.2
    simp only [List.length_nil, List.length_append, List.length_cons] at this
    omega

theorem stops_cons (e : Request × RequestResult) (log : List (Request × RequestResult))
    (returned : Bool) (he : failed_mkcol e = false) (h : stops_at_failed_mkcol log returned) :
    stops_at_failed_mkcol (e :: log) returned := by
  intro pre x post hsplit hx
  cases pre with
  | nil =>
    simp only [List.nil_append, List.cons.injEq] at hsplit
    obtain ⟨h1, _⟩ := hsplit
    subst h1
    rw [he] at hx
    cases hx
  | cons p pre =>
    simp only [List.cons_append, List.cons.injEq] at hsplit
    exact h pre x post hsplit.2 hx

theorem stops_concat (log : List (Request × RequestResult)) (e : Request × RequestResult)
    (returned : Bool) (h : stops_at_failed_mkcol log true)
    (he : failed_mkcol e = true → returned = false) :
    stops_at_failed_mkcol (log ++ [e]) returned := by
  intro pre x post hsplit hx
  rcases List.eq_nil_or_concat post with hp | ⟨post1, y, hp⟩
  · subst hp
    have hlast : x = e := by
      have := congrArg List.getLast? hsplit
      simpa using this.symm
    subst hlast
    exact ⟨rfl, he hx⟩
  · subst hp
    have hsplit2 : log ++ [e] = (pre ++ x :: post1) ++ [y] := by
      rw [hsplit]
      simp
    have hlog : log = pre ++ x :: post1 := (List.append_inj_left' hsplit2 rfl)
    have := (h pre x post1 hlog hx).2
    cases this

/-- Every self-call level of `create_directory` keeps the log free of requests
after a failed MKCOL. -/
theorem create_directory_fuel_stops {σ : Type} (server : Server σ) (webdav_root : String)
    (fuel : Nat) :
    ∀ (remote_directory : String) (recursive : Bool) (w : Session σ) (b : Bool) (w1 : Session σ),
      Client.create_directory_fuel server webdav_root fuel remote_directory recursive w =
          some (b, w1) →
        ∃ log, w1.issued = w.issued ++ log ∧ stops_at_failed_mkcol log b := by
  induction fuel with
  | zero =>
    intro d recursive w b w1 h
    simp [Client.create_directory_fuel] at h
  | succ fuel ih =>
    intro d recursive w b w1 h
    rw [Client.create_directory_fuel] at h
    obtain ⟨e, he, hfe⟩ := check_issued server webdav_root d w
    cases hk : Client.check server webdav_root d w with
    | mk is_existed wc =>
      rw [hk] at h he
      simp only at h he
      have hsingle : ∀ r : Bool, stops_at_failed_mkcol [e] r :=
        fun r => stops_single e r (fun hx => by rw [hfe] at hx; cases hx)
      cases is_existed with
      | true =>
        simp only [if_true, Option.some.injEq, Prod.mk.injEq] at h
        obtain ⟨hb, hw⟩ := h
        subst hb
        subst hw
        exact ⟨[e], he, hsingle _⟩
      | false =>
        simp only [Bool.false_eq_true, if_false] at h
        obtain ⟨res, hres1, hres2⟩ := perform_spec server wc (mkcol_request webdav_root d)
        cases recursive with
        | false =>
          simp only [Bool.false_eq_true, if_false, Option.some.injEq] at h
          rw [h] at hres1 hres2
          simp only at hres1 hres2
          refine ⟨[e] ++ [(mkcol_request webdav_root d, res)], ?_, ?_⟩
          · rw [hres2, he, List.append_assoc]
          · refine stops_concat [e] _ b (hsingle true) ?_
            intro hx
            rw [hres1]
            have hx2 := hx
            simp only [failed_mkcol, Bool.and_eq_true, Bool.not_eq_true'] at hx2
            exact hx2.2
        | true =>
          simp only [if_true] at h
          by_cases hp : (Urn.Path.new d true).parent.path = d
          · simp only [hp, if_true, Option.some.injEq, Prod.mk.injEq] at h
            obtain ⟨hb, hw⟩ := h
            subst hb
            subst hw
            exact ⟨[e], he, hsingle _⟩
          · simp only [hp, if_false] at h
            cases hrec : Client.create_directory_fuel server webdav_root fuel
                (Urn.Path.new d true).parent.path true wc with
            | none => simp [hrec] at h
            | some r =>
              obtain ⟨is_created, w2⟩ := r
              rw [hrec] at h
              simp only at h
              obtain ⟨log1, hlog1, hstop1⟩ := ih _ _ _ _ _ hrec
              cases is_created with
              | false =>
                simp only [Bool.not_false, if_true, Option.some.injEq, Prod.mk.injEq] at h
                obtain ⟨hb, hw⟩ := h
                subst hb
                subst hw
                refine ⟨e :: log1, ?_, stops_cons e log1 false hfe hstop1⟩
                rw [hlog1, he]
                simp
              | true =>
                simp only [Bool.not_true, Bool.false_eq_true, if_false, Option.some.injEq] at h
                obtain ⟨res2, h21, h22⟩ := perform_spec server w2 (mkcol_request webdav_root d)
                rw [h] at h21 h22
                simp only at h21 h22
                refine ⟨(e :: log1) ++ [(mkcol_request webdav_root d, res2)], ?_, ?_⟩
                · rw [h22, hlog1, he]
                  simp
                · refine stops_concat (e :: log1) _ b (stops_cons e log1 true hfe hstop1) ?_
                  intro hx
                  rw [h21]
                  have hx2 := hx
                  simp only [failed_mkcol, Bool.and_eq_true, Bool.not_eq_true'] at hx2
                  exact hx2.2

end WebDAV

namespace WebDAV

/-! ## Lemmas: `Client::create_directory` returns -/

theorem create_directory_fuel_step {σ : Type} (server : Server σ) (webdav_root : String)
    (fuel : Nat) (remote_directory : String)
    (hparent : (Urn.Path.new remote_directory true).parent.path ≠ remote_directory →
      ∀ w1 : Session σ, ∃ r, Client.create_directory_fuel server webdav_root fuel
        (Urn.Path.new remote_directory true).parent.path true w1 = some r)
    (recursive : Bool) (w : Session σ) :
    ∃ r, Client.create_directory_fuel server webdav_root (fuel + 1) remote_directory
      recursive w = some r := by
  rw [Client.create_directory_fuel]
  cases Client.check server webdav_root remote_directory w with
  | mk is_existed wc =>
    simp only
    cases is_existed with
    | true => exact ⟨_, rfl⟩
    | false =>
      simp only [Bool.false_eq_true, if_false]
      cases recursive with
      | false => exact ⟨_, rfl⟩
      | true =>
        simp only [if_true]
        by_cases hp : (Urn.Path.new remote_directory true).parent.path = remote_directory
        · simp only [hp, if_true]
          exact ⟨_, rfl⟩
        · simp only [hp, if_false]
          obtain ⟨r, hr⟩ := hparent hp wc
          rw [hr]
          obtain ⟨is_created, w2⟩ := r
          cases is_created with
          | false => exact ⟨_, rfl⟩
          | true => exact ⟨_, rfl⟩

theorem create_directory_fuel_root {σ : Type} (server : Server σ) (webdav_root : String)
    (fuel : Nat) (recursive : Bool) (w : Session σ) :
    ∃ r, Client.create_directory_fuel server webdav_root (fuel + 1) "/" recursive w = some r :=
  create_directory_fuel_step server webdav_root fuel "/"
    (fun h => absurd (by decide : (Urn.Path.new "/" true).parent.path = "/") h) recursive w

theorem create_directory_fuel_returns {σ : Type} (server : Server σ) (webdav_root : String)
    (n : Nat) :
    ∀ (remote_directory : String) (recursive : Bool) (w : Session σ) (fuel : Nat),
      (Urn.Path.new remote_directory true).segments.length ≤ n → n + 2 ≤ fuel →
        ∃ r, Client.create_directory_fuel server webdav_root fuel remote_directory
          recursive w = some r := by
  induction n with
  | zero =>
    intro d recursive w fuel hseg hfuel
    obtain ⟨f, hf⟩ : ∃ f, fuel = f + 2 := ⟨fuel - 2, by omega⟩
    subst hf
    have h0 : (Urn.Path.new d true).segments = [] :=
      List.length_eq_zero.mp (Nat.le_zero.mp hseg)
    refine create_directory_fuel_step server webdav_root (f + 1) d ?_ recursive w
    intro _ w1
    rw [Urn.parent_path_of_no_segment d h0]
    exact create_directory_fuel_root server webdav_root f true w1
  | succ n ih =>
    intro d recursive w fuel hseg hfuel
    obtain ⟨f, hf⟩ : ∃ f, fuel = f + 1 := ⟨fuel - 1, by omega⟩
    subst hf
    refine create_directory_fuel_step server webdav_root f d ?_ recursive w
    intro _ w1
    refine ih _ true w1 f ?_ (by omega)
    rw [Urn.segments_of_parent_path, List.length_dropLast]
    omega

end WebDAV

namespace WebDAV

/-! ## Theorems: `Client::create_directory` -/

/-- On any server, once the existence checks for `/a/b/c`, `/a/b/` and `/a/`
have failed and the one for `/` has passed, the recursive call issues the
MKCOL requests for `/a/`, `/a/b/`, `/a/b/c` in that order and stops at the first
that fails. -/
theorem create_directory_three_levels {σ : Type} (server : Server σ) (webdav_root : String)
    (w w1 w2 w3 w4 : Session σ)
    (h1 : Client.check server webdav_root "/a/b/c" w = (false, w1))
    (h2 : Client.check server webdav_root "/a/b/" w1 = (false, w2))
    (h3 : Client.check server webdav_root "/a/" w2 = (false, w3))
    (h4 : Client.check server webdav_root "/" w3 = (true, w4)) :
    Client.create_directory server webdav_root "/a/b/c" true w =
      some (mkcol_in_order server webdav_root ["/a/", "/a/b/", "/a/b/c"] w4) := by
  have hfuel : (Urn.Path.new "/a/b/c" true).segments.length + 2 = 5 := by decide
  have p1 : (Urn.Path.new "/a/b/c" true).parent.path = "/a/b/" := by decide
  have p2 : (Urn.Path.new "/a/b/" true).parent.path = "/a/" := by decide
  have p3 : (Urn.Path.new "/a/" true).parent.path = "/" := by decide
  have n1 : ("/a/b/" : String) ≠ "/a/b/c" := by decide
  have n2 : ("/a/" : String) ≠ "/a/b/" := by decide
  have n3 : ("/" : String) ≠ "/a/" := by decide
  unfold Client.create_directory
  rw [hfuel]
  rw [Client.create_directory_fuel, h1]
  simp only [Bool.false_eq_true, if_false, if_true, p1, n1]
  rw [Client.create_directory_fuel, h2]
  simp only [Bool.false_eq_true, if_false, if_true, p2, n2]
  rw [Client.create_directory_fuel, h3]
  simp only [Bool.false_eq_true, if_false, if_true, p3, n3]
  rw [Client.create_directory_fuel, h4]
  simp only [if_true, Bool.not_true, Bool.false_eq_true, if_false, mkcol_in_order]
  cases hm1 : (perform server w4 (mkcol_request webdav_root "/a/")) with
  | mk b1 s1 =>
    cases b1 with
    | false => simp
    | true =>
      simp only [Bool.not_true, Bool.false_eq_true, if_false, if_true]
      cases hm2 : (perform server s1 (mkcol_request webdav_root "/a/b/")) with
      | mk b2 s2 =>
        cases b2 with
        | false => simp
        | true =>
          simp only [Bool.not_true, Bool.false_eq_true, if_false]
          cases hm3 : (perform server s2 (mkcol_request webdav_root "/a/b/c")) with
          | mk b3 s3 =>
            cases b3 with
            | false => rfl
            | true => rfl

/-- C13: on a server where the root exists and `/a`, `/a/b`, `/a/b/c` do not,
`create_directory("/a/b/c", recursive = true)` issues MKCOL for `/a`, then
`/a/b`, then `/a/b/c`, in that order, and returns true when they succeed. Every
call returns; and in every recursive call nothing is issued after an MKCOL that
failed and the call that met one returns false, as on the server that refuses
`/a/b`, where no MKCOL for `/a/b/c` is issued. -/
theorem create_directory_recursive_order :
    (∀ (σ : Type) (server : Server σ) (webdav_root : String) (w w1 w2 w3 w4 : Session σ),
      Client.check server webdav_root "/a/b/c" w = (false, w1) →
      Client.check server webdav_root "/a/b/" w1 = (false, w2) →
      Client.check server webdav_root "/a/" w2 = (false, w3) →
      Client.check server webdav_root "/" w3 = (true, w4) →
        Client.create_directory server webdav_root "/a/b/c" true w =
          some (mkcol_in_order server webdav_root ["/a/", "/a/b/", "/a/b/c"] w4)) ∧
    ((Client.create_directory (collection_server []) "/" "/a/b/c" true only_root).map
        (fun r => (r.1, requests_of r.2.issued)) =
      some (true,
        [("PROPFIND", "/a/b/c"), ("PROPFIND", "/a/b/"), ("PROPFIND", "/a/"), ("PROPFIND", "/"),
          ("MKCOL", "/a/"), ("MKCOL", "/a/b/"), ("MKCOL", "/a/b/c/")])) ∧
    (∀ (σ : Type) (server : Server σ) (webdav_root remote_directory : String)
        (recursive : Bool) (w : Session σ),
      ∃ r, Client.create_directory server webdav_root remote_directory recursive w = some r) ∧
    (∀ (σ : Type) (server : Server σ) (webdav_root remote_directory : String)
        (w : Session σ) (b : Bool) (w1 : Session σ),
      Client.create_directory server webdav_root remote_directory true w = some (b, w1) →
        ∃ log, w1.issued = w.issued ++ log ∧
          ∀ pre e post, log = pre ++ e :: post → e.1.method = "MKCOL" →
            e.2.is_success = false → post = [] ∧ b = false) ∧
    ((Client.create_directory (collection_server ["/a/b"]) "/" "/a/b/c" true only_root).map
        (fun r => (r.1, paths_of_method "MKCOL" r.2.issued)) =
      some (false, ["/a/", "/a/b/"])) := by
  refine ⟨?_, by decide, ?_, ?_, by decide⟩
  · intro σ server webdav_root w w1 w2 w3 w4 h1 h2 h3 h4
    exact create_directory_three_levels server webdav_root w w1 w2 w3 w4 h1 h2 h3 h4
  · intro σ server webdav_root d recursive w
    exact create_directory_fuel_returns server webdav_root _ d recursive w _
      (Nat.le_refl _) (Nat.le_refl _)
  · intro σ server webdav_root d w b w1 h
    obtain ⟨log, hlog, hstop⟩ :=
      create_directory_fuel_stops server webdav_root _ d true w b w1 h
    refine ⟨log, hlog, ?_⟩
    intro pre e post hsplit hm hs
    exact hstop pre e post hsplit (by simp [failed_mkcol, hm, hs])

end WebDAV
